import Mathlib

/-!
# janet-duckdb: the statement pipeline of `src/duckdb.c`

A shallow embedding of the C binding between the Janet host and the DuckDB
engine.  The engine is an external collaborator: what it answers during one
call is given by a script (`Engine`, `Statement`, `ResultSet`).  Every engine
call that creates or destroys a native handle, and every engine bind call, is
recorded in a trace of `Event`s, in the order the C code makes them.

`janet_panicf` is a non-local exit: a function that panics returns
`Except.error` together with the trace of the calls made so far, and nothing
after the panic is run.

C `int`/`int32_t` counters are natural numbers here; declared parameter counts
and argument counts are taken inside the range of `int`, so `offset + n`
does not overflow.  The one place where a conversion changes a value, the
`int32_t` parameter of `janet_wrap_integer`, is modelled with explicit
arithmetic modulo `2^32`.
-/

namespace JanetDuckDB

/-- A byte sequence with an explicit length (host strings, buffers, C strings). -/
abbrev Bytes := List UInt8

/-- A C `double`, as far as this development needs one: `int v` is the double whose
value is the integer `v` (every integer of at most 32 bits is one, exactly);
`raw bits` is any other double, identified by its bit pattern. -/
inductive CDouble
  | int (v : Int)
  | raw (bits : Nat)
  deriving DecidableEq, Repr

/-- The `JanetType` enumeration of `janet.h`. -/
inductive JanetType
  | JANET_NUMBER
  | JANET_NIL
  | JANET_BOOLEAN
  | JANET_FIBER
  | JANET_STRING
  | JANET_SYMBOL
  | JANET_KEYWORD
  | JANET_ARRAY
  | JANET_TUPLE
  | JANET_TABLE
  | JANET_STRUCT
  | JANET_BUFFER
  | JANET_FUNCTION
  | JANET_CFUNCTION
  | JANET_ABSTRACT
  | JANET_POINTER
  deriving DecidableEq, Repr

/-- Host kinds whose payload this binding never inspects. -/
inductive HostKind
  | fiber
  | array
  | tuple
  | table
  | struct
  | function
  | cfunction
  | pointer
  deriving DecidableEq, Repr

/-- The abstract types a host value of kind `JANET_ABSTRACT` can have: the two of
this module (`database_type`, `connection_type`) and any foreign one. -/
inductive AbstractType
  | database_type
  | connection_type
  | foreign
  deriving DecidableEq, Repr

/-- A host value (`Janet`).  An abstract value is a reference: `ref` names the
`Database` or `Connection` record it points to. -/
inductive Janet
  | nil
  | number (x : CDouble)
  | boolean (b : Bool)
  | string (s : Bytes)
  | symbol (s : Bytes)
  | keyword (s : Bytes)
  | buffer (data : Bytes)
  | abstract (t : AbstractType) (ref : Nat)
  | other (k : HostKind)
  deriving DecidableEq, Repr

/-- The C function `janet_type`. -/
def janet_type : Janet → JanetType
  | .nil => .JANET_NIL
  | .number _ => .JANET_NUMBER
  | .boolean _ => .JANET_BOOLEAN
  | .string _ => .JANET_STRING
  | .symbol _ => .JANET_SYMBOL
  | .keyword _ => .JANET_KEYWORD
  | .buffer _ => .JANET_BUFFER
  | .abstract _ _ => .JANET_ABSTRACT
  | .other .fiber => .JANET_FIBER
  | .other .array => .JANET_ARRAY
  | .other .tuple => .JANET_TUPLE
  | .other .table => .JANET_TABLE
  | .other .struct => .JANET_STRUCT
  | .other .function => .JANET_FUNCTION
  | .other .cfunction => .JANET_CFUNCTION
  | .other .pointer => .JANET_POINTER

/-- The `duckdb_type` enumeration of `duckdb.h`: the types `src/duckdb.c` names, and
`other code` for every remaining engine type (BOOLEAN, DATE, HUGEINT, ...). -/
inductive duckdb_type
  | DUCKDB_TYPE_INVALID
  | DUCKDB_TYPE_TINYINT
  | DUCKDB_TYPE_SMALLINT
  | DUCKDB_TYPE_INTEGER
  | DUCKDB_TYPE_BIGINT
  | DUCKDB_TYPE_UTINYINT
  | DUCKDB_TYPE_USMALLINT
  | DUCKDB_TYPE_UINTEGER
  | DUCKDB_TYPE_UBIGINT
  | DUCKDB_TYPE_FLOAT
  | DUCKDB_TYPE_DOUBLE
  | DUCKDB_TYPE_VARCHAR
  | DUCKDB_TYPE_BLOB
  | other (code : Nat)
  deriving DecidableEq, Repr

/-- One call of an engine bind function on a prepared statement: the function, the
1-based parameter index and the value passed. -/
inductive BindCall
  | duckdb_bind_null (index : Nat)
  | duckdb_bind_double (index : Nat) (x : CDouble)
  | duckdb_bind_boolean (index : Nat) (b : Bool)
  | duckdb_bind_varchar_length (index : Nat) (str : Bytes) (len : Nat)
  | duckdb_bind_blob (index : Nat) (data : Bytes) (count : Nat)
  deriving DecidableEq, Repr

/-- The content of one result cell, as the engine holds it. -/
inductive Cell
  | null
  | integer (v : Int)
  | floating (x : CDouble)
  | varchar (s : Bytes)
  | blob (data : Bytes)
  | other
  deriving DecidableEq, Repr

/-- A `duckdb_result`: the column schema in engine order (name, engine type;
duplicate names permitted), the row count, and the cell at each (col, row). -/
structure ResultSet where
  columns : List (Bytes × duckdb_type)
  row_count : Nat
  cell : Nat → Nat → Cell

/-- What the engine does with one extracted statement during this call. -/
structure Statement where
  /-- whether `duckdb_prepare_extracted_statement` returns `DuckDBSuccess` -/
  prepare_ok : Bool
  /-- what `duckdb_prepare_error` returns -/
  prepare_error : String
  /-- what `duckdb_nparams` returns -/
  nparams : Nat
  /-- what `duckdb_param_type` returns for a 1-based index -/
  param_type : Nat → duckdb_type
  /-- whether the bind call returns `DuckDBSuccess` -/
  bind_ok : BindCall → Bool
  /-- whether `duckdb_execute_prepared` returns `DuckDBSuccess` -/
  execute_ok : Bool
  /-- what `duckdb_result_error` returns -/
  execute_error : String
  /-- the result `duckdb_execute_prepared` writes -/
  result : ResultSet

/-- What `duckdb_extract_statements` answers for a connection and a source text:
the ordered batch (its length is the returned statement count) and the text of
`duckdb_extract_statements_error`. -/
structure Engine where
  extract_statements : Nat → Bytes → List Statement
  extract_statements_error : Nat → Bytes → String

/-- The native handles of one pipeline call. -/
inductive Handle
  | extracted
  | prepared (index : Nat)
  | result (index : Nat)
  deriving DecidableEq, Repr

/-- The engine calls that the trace records. -/
inductive Event
  | extract_statements
  | destroy_extracted
  | prepare_extracted_statement (index : Nat)
  | destroy_prepare (index : Nat)
  | bind (stmt : Nat) (call : BindCall)
  | execute_prepared (index : Nat)
  | destroy_result (index : Nat)
  deriving DecidableEq, Repr

/-- The panics of `src/duckdb.c`, named as the specification names them, with the
values their messages are formatted from. -/
inductive Err
  | HostArity (argc : Nat)
  | BadSlot (n : Nat)
  | ParseError (msg : String)
  | PrepareError (index1 : Nat) (msg : String)
  | ArityError (given : Int) (needed : Int)
  | UnsupportedBindType (arg : Janet) (index : Nat) (needs : duckdb_type)
  | StatementInvalid (arg : Janet) (index : Nat)
  | TypeMismatch (arg : Janet) (index : Nat) (needed : duckdb_type)
  | ExecuteError (index1 : Nat) (msg : String)
  | ArgumentsNotConsumed (bound : Int) (total : Int)
  | UnknownColumnType (col : Nat) (row : Nat)
  deriving DecidableEq, Repr

/-- The outcome of a C function and the engine calls it made, in order. -/
abbrev Run (α : Type) := Except Err α × List Event

/-- The switch of `bind1` (lines 96-128): the engine bind function called for a host
value and a 1-based index, or `none` in the `default` case. -/
def bind1_call (index : Nat) (arg : Janet) : Option BindCall :=
  match janet_type arg, arg with
  | .JANET_NIL, _ => some (.duckdb_bind_null index)
  | .JANET_NUMBER, .number x => some (.duckdb_bind_double index x)
  | .JANET_BOOLEAN, .boolean b => some (.duckdb_bind_boolean index b)
  | .JANET_STRING, .string s => some (.duckdb_bind_varchar_length index s s.length)
  | .JANET_SYMBOL, .symbol s => some (.duckdb_bind_varchar_length index s s.length)
  | .JANET_KEYWORD, .keyword s => some (.duckdb_bind_varchar_length index s s.length)
  | .JANET_BUFFER, .buffer data => some (.duckdb_bind_blob index data data.length)
  | _, _ => none

/-- The C function `bind1` (lines 94-143) for statement number `k` of the batch. -/
def bind1 (s : Statement) (k : Nat) (index : Nat) (arg : Janet) : Run Unit :=
  match bind1_call index arg with
  | none => (.error (.UnsupportedBindType arg index (s.param_type index)), [])
  | some call =>
    if s.bind_ok call then (.ok (), [.bind k call])
    else if s.param_type index = .DUCKDB_TYPE_INVALID then
      (.error (.StatementInvalid arg index), [.bind k call])
    else
      (.error (.TypeMismatch arg index (s.param_type index)),
        [.bind k call, .destroy_prepare k])

/-- The loop of `bind` (lines 151-154), from counter `i`; `fuel` is the number of
iterations left, `n - i`. -/
def bind_loop (s : Statement) (k : Nat) (argv : List Janet) (offset n : Nat) :
    Nat → Nat → Run Unit
  | 0, _ => (.ok (), [])
  | fuel + 1, i =>
    if offset + i < argv.length ∧ i < n then
      match bind1 s k (i + 1) (argv.getD (offset + i) .nil) with
      | (.error e, t) => (.error e, t)
      | (.ok _, t) =>
        match bind_loop s k argv offset n fuel (i + 1) with
        | (o, t') => (o, t ++ t')
    else (.ok (), [])

/-- The C function `bind` (lines 145-156); `argc` is `argv.length`. -/
def bind (s : Statement) (k : Nat) (argv : List Janet) (offset : Nat) : Run Nat :=
  if offset + s.nparams > argv.length then
    (.error (.ArityError ((argv.length : Int) - offset) s.nparams), [])
  else
    match bind_loop s k argv offset s.nparams s.nparams 0 with
    | (.error e, t) => (.error e, t)
    | (.ok _, t) => (.ok (offset + s.nparams), t)

/-- The C function `execute_extracted_statement` (lines 158-180).  A statement index
outside the batch makes the engine's prepare fail; `connection_eval` never passes
one. -/
def execute_extracted_statement (statements : List Statement) (index : Nat)
    (argv : List Janet) (bind_offset : Nat) : Run (Nat × ResultSet) :=
  match statements[index]? with
  | none =>
    (.error (.PrepareError (index + 1) ""),
      [.prepare_extracted_statement index, .destroy_prepare index])
  | some s =>
    if s.prepare_ok = false then
      (.error (.PrepareError (index + 1) s.prepare_error),
        [.prepare_extracted_statement index, .destroy_prepare index])
    else
      match bind s index argv bind_offset with
      | (.error e, t) => (.error e, .prepare_extracted_statement index :: t)
      | (.ok bind_offset', t) =>
        if s.execute_ok = false then
          (.error (.ExecuteError (index + 1) s.execute_error),
            .prepare_extracted_statement index :: t ++
              [.execute_prepared index, .destroy_result index])
        else
          (.ok (bind_offset', s.result),
            .prepare_extracted_statement index :: t ++
              [.execute_prepared index, .destroy_prepare index])

/-- The first loop of `connection_eval` (lines 195-199), from counter `i` with the
bind cursor `bind_offset`; `fuel` is the number of iterations left, `last - i`.
Returns the bind cursor after the loop. -/
def statements_loop (statements : List Statement) (argv : List Janet) (last : Nat) :
    Nat → Nat → Nat → Run Nat
  | 0, _, bind_offset => (.ok bind_offset, [])
  | fuel + 1, i, bind_offset =>
    if i < last then
      match execute_extracted_statement statements i argv bind_offset with
      | (.error e, t) => (.error e, t)
      | (.ok (bind_offset', _), t) =>
        match statements_loop statements argv last fuel (i + 1) bind_offset' with
        | (o, t') => (o, t ++ .destroy_result i :: t')
    else (.ok bind_offset, [])

/-- Lines 193-201 of `connection_eval`: every statement but the last is executed and
its result destroyed, then the last one is executed and its result kept. -/
def execute_statements (statements : List Statement) (argv : List Janet) :
    Run (Nat × ResultSet) :=
  match statements_loop statements argv (statements.length - 1)
      (statements.length - 1) 0 2 with
  | (.error e, t) => (.error e, t)
  | (.ok bind_offset, t) =>
    match execute_extracted_statement statements (statements.length - 1) argv
        bind_offset with
    | (o, t') => (o, t ++ t')

/-- Conversion of an integer to the `int32_t` parameter of `janet_wrap_integer`:
reduction modulo `2^32` into the signed range. -/
def to_int32 (x : Int) : Int := (x + 2 ^ 31) % 2 ^ 32 - 2 ^ 31

/-- Conversion of a natural number below `2^64` to the nearest double (ties to
even): exact below `2^53`. -/
def round_to_double (n : Nat) : Nat :=
  if n < 2 ^ 53 then n
  else
    let e := Nat.log2 n - 52
    let q := n / 2 ^ e
    let r := n % 2 ^ e
    let half := 2 ^ (e - 1)
    if half < r ∨ (r = half ∧ q % 2 = 1) then (q + 1) * 2 ^ e else q * 2 ^ e

/-- The implicit conversion of a 64-bit integer to `double`. -/
def int_to_double (v : Int) : CDouble :=
  if 0 ≤ v then .int (round_to_double v.natAbs) else .int (-(round_to_double v.natAbs : Int))

/-- The C function `janet_wrap_number`. -/
def janet_wrap_number (x : CDouble) : Janet := .number x

/-- The C function `janet_wrap_integer`, whose parameter is an `int32_t`. -/
def janet_wrap_integer (x : Int) : Janet := janet_wrap_number (.int (to_int32 x))

/-- The column count of a result. -/
def duckdb_column_count (r : ResultSet) : Nat := r.columns.length

/-- The name of a column (the empty name outside the schema). -/
def duckdb_column_name (r : ResultSet) (col : Nat) : Bytes :=
  match r.columns.get? col with
  | some c => c.1
  | none => []

/-- The engine type of a column (`DUCKDB_TYPE_INVALID` outside the schema). -/
def duckdb_column_type (r : ResultSet) (col : Nat) : duckdb_type :=
  match r.columns.get? col with
  | some c => c.2
  | none => .DUCKDB_TYPE_INVALID

/-- The C function `duckdb_value_is_null`. -/
def duckdb_value_is_null (r : ResultSet) (col row : Nat) : Bool :=
  match r.cell col row with
  | .null => true
  | _ => false

/-- The integer a cell holds; the integer accessors `duckdb_value_int8`, ...,
`duckdb_value_uint64` return it in their own C type. -/
def duckdb_value_integer (r : ResultSet) (col row : Nat) : Int :=
  match r.cell col row with
  | .integer v => v
  | _ => 0

/-- The double a cell holds (`duckdb_value_float`, widened, and `duckdb_value_double`). -/
def duckdb_value_double (r : ResultSet) (col row : Nat) : CDouble :=
  match r.cell col row with
  | .floating x => x
  | _ => .int 0

/-- The bytes of `duckdb_value_string_internal`: `data[0..size)`. -/
def duckdb_value_string_internal (r : ResultSet) (col row : Nat) : Bytes :=
  match r.cell col row with
  | .varchar s => s
  | _ => []

/-- The bytes of `duckdb_value_blob`: `data[0..size)`. -/
def duckdb_value_blob (r : ResultSet) (col row : Nat) : Bytes :=
  match r.cell col row with
  | .blob data => data
  | _ => []

/-- The type switch of `connection_eval` (lines 225-281) for a cell that is not null.
The buffer of `duckdb_value_blob` is copied and freed inside its own case. -/
def decode_cell (r : ResultSet) (col row : Nat) : Except Err Janet :=
  match duckdb_column_type r col with
  | .DUCKDB_TYPE_TINYINT => .ok (janet_wrap_integer (duckdb_value_integer r col row))
  | .DUCKDB_TYPE_SMALLINT => .ok (janet_wrap_integer (duckdb_value_integer r col row))
  | .DUCKDB_TYPE_INTEGER => .ok (janet_wrap_integer (duckdb_value_integer r col row))
  | .DUCKDB_TYPE_BIGINT =>
    .ok (janet_wrap_number (int_to_double (duckdb_value_integer r col row)))
  | .DUCKDB_TYPE_UTINYINT => .ok (janet_wrap_integer (duckdb_value_integer r col row))
  | .DUCKDB_TYPE_USMALLINT => .ok (janet_wrap_integer (duckdb_value_integer r col row))
  | .DUCKDB_TYPE_UINTEGER => .ok (janet_wrap_integer (duckdb_value_integer r col row))
  | .DUCKDB_TYPE_UBIGINT =>
    .ok (janet_wrap_number (int_to_double (duckdb_value_integer r col row)))
  | .DUCKDB_TYPE_FLOAT => .ok (janet_wrap_number (duckdb_value_double r col row))
  | .DUCKDB_TYPE_DOUBLE => .ok (janet_wrap_number (duckdb_value_double r col row))
  | .DUCKDB_TYPE_VARCHAR => .ok (.string (duckdb_value_string_internal r col row))
  | .DUCKDB_TYPE_BLOB => .ok (.buffer (duckdb_value_blob r col row))
  | _ => .error (.UnknownColumnType col row)

/-- A host struct under construction (`JanetKV *` between `janet_struct_begin` and
`janet_struct_end`): the entry count it was begun with and the pairs put so far. -/
structure JanetKV where
  length : Nat
  items : List (Janet × Janet)
  deriving DecidableEq, Repr

/-- The C function `janet_struct_begin`. -/
def janet_struct_begin (count : Nat) : JanetKV := ⟨count, []⟩

/-- Replaces the value stored under `key`, if there is one. -/
def replace_value (key value : Janet) : List (Janet × Janet) → List (Janet × Janet)
  | [] => []
  | (k, v) :: rest =>
    if k = key then (k, value) :: rest else (k, v) :: replace_value key value rest

/-- The function `janet_struct_put` of the host library: a nil key or a nil value is
ignored, a put into a struct that already holds `length` keys is ignored, a key
already present has its value replaced, a new key is added. -/
def janet_struct_put (st : JanetKV) (key value : Janet) : JanetKV :=
  if key = .nil ∨ value = .nil then st
  else if st.items.length = st.length then st
  else if key ∈ st.items.map Prod.fst then ⟨st.length, replace_value key value st.items⟩
  else ⟨st.length, st.items ++ [(key, value)]⟩

/-- The function `janet_struct_end` of the host library: the finished struct holds
the pairs that went in. -/
def janet_struct_end (st : JanetKV) : List (Janet × Janet) := st.items

/-- The function `janet_struct_get` of the host library: the value stored under
`key`, nil when there is none. -/
def janet_struct_get : List (Janet × Janet) → Janet → Janet
  | [], _ => .nil
  | (k, v) :: rest, key => if k = key then v else janet_struct_get rest key

/-- Lines 209-214 of `connection_eval`: the tuple of column names, as keywords. -/
def column_keywords (r : ResultSet) : List Janet :=
  (List.range (duckdb_column_count r)).map fun i => .keyword (duckdb_column_name r i)

/-- The column loop of `connection_eval` (lines 220-284) for one row, from column
`col`; `fuel` is the number of iterations left, `column_count - col`.  The put of
line 282 is inside the `else` branch of the null test. -/
def columns_loop (r : ResultSet) (colnames : List Janet) (row : Nat) :
    Nat → Nat → JanetKV → Except Err JanetKV
  | 0, _, row_values => .ok row_values
  | fuel + 1, col, row_values =>
    if col < duckdb_column_count r then
      if duckdb_value_is_null r col row then
        columns_loop r colnames row fuel (col + 1) row_values
      else
        match decode_cell r col row with
        | .error e => .error e
        | .ok value =>
          columns_loop r colnames row fuel (col + 1)
            (janet_struct_put row_values (colnames.getD col .nil) value)
    else .ok row_values

/-- The body of the row loop (lines 219-285): the struct pushed for one row. -/
def build_row (r : ResultSet) (colnames : List Janet) (row : Nat) :
    Except Err (List (Janet × Janet)) :=
  match columns_loop r colnames row (duckdb_column_count r) 0
      (janet_struct_begin (duckdb_column_count r)) with
  | .error e => .error e
  | .ok row_values => .ok (janet_struct_end row_values)

/-- The row loop of `connection_eval` (lines 218-286), from row `row` with the array
`rows` built so far; `fuel` is the number of iterations left, `row_count - row`. -/
def rows_loop (r : ResultSet) (colnames : List Janet) :
    Nat → Nat → List (List (Janet × Janet)) → Except Err (List (List (Janet × Janet)))
  | 0, _, rows => .ok rows
  | fuel + 1, row, rows =>
    if row < r.row_count then
      match build_row r colnames row with
      | .error e => .error e
      | .ok st => rows_loop r colnames fuel (row + 1) (rows ++ [st])
    else .ok rows

/-- Lines 209-286 of `connection_eval`: the array of one struct per row. -/
def materialize (r : ResultSet) : Except Err (List (List (Janet × Janet))) :=
  rows_loop r (column_keywords r) r.row_count 0 []

/-- The function `janet_getabstract` of the host library: the record `argv[n]` refers
to, when `argv[n]` is an abstract value of type `t`; a panic otherwise. -/
def janet_getabstract (argv : List Janet) (n : Nat) (t : AbstractType) : Except Err Nat :=
  match argv.getD n .nil with
  | .abstract t' ref => if t' = t then .ok ref else .error (.BadSlot n)
  | _ => .error (.BadSlot n)

/-- The function `janet_getcstring` of the host library: the bytes of `argv[n]`, when
`argv[n]` is a host string without a zero byte; a panic otherwise. -/
def janet_getcstring (argv : List Janet) (n : Nat) : Except Err Bytes :=
  match argv.getD n .nil with
  | .string s => if (0 : UInt8) ∈ s then .error (.BadSlot n) else .ok s
  | _ => .error (.BadSlot n)

/-- Lines 187-289 of `connection_eval`, for the batch `statements` that
`duckdb_extract_statements` produced (`extract_error` is the text of
`duckdb_extract_statements_error`). -/
def eval_extracted (statements : List Statement) (extract_error : String)
    (argv : List Janet) : Run (List (List (Janet × Janet))) :=
  if statements.length = 0 then
    (.error (.ParseError extract_error), [.extract_statements, .destroy_extracted])
  else
    match execute_statements statements argv with
    | (.error e, t) => (.error e, .extract_statements :: t)
    | (.ok (bind_offset, result), t) =>
      if bind_offset ≠ argv.length then
        (.error (.ArgumentsNotConsumed ((bind_offset : Int) - 2) ((argv.length : Int) - 2)),
          .extract_statements :: t)
      else
        match materialize result with
        | .error e => (.error e, .extract_statements :: t)
        | .ok rows =>
          (.ok rows,
            .extract_statements :: t ++
              [.destroy_result (statements.length - 1), .destroy_extracted])

/-- The C function `connection_eval` (lines 182-290): `janet_arity(argc, 2, -1)`, the
connection from `argv[0]`, the source text from `argv[1]`, then the pipeline on the
batch the engine extracts. -/
def connection_eval (E : Engine) (argv : List Janet) : Run (List (List (Janet × Janet))) :=
  if argv.length < 2 then (.error (.HostArity argv.length), [])
  else
    match janet_getabstract argv 0 .connection_type with
    | .error e => (.error e, [])
    | .ok c =>
      match janet_getcstring argv 1 with
      | .error e => (.error e, [])
      | .ok query =>
        eval_extracted (E.extract_statements c query) (E.extract_statements_error c query) argv

/-- The handle an engine call creates, if it creates one. -/
def Event.creates : Event → Option Handle
  | .extract_statements => some .extracted
  | .prepare_extracted_statement i => some (.prepared i)
  | .execute_prepared i => some (.result i)
  | _ => none

/-- The handle an engine call destroys, if it destroys one. -/
def Event.destroys : Event → Option Handle
  | .destroy_extracted => some .extracted
  | .destroy_prepare i => some (.prepared i)
  | .destroy_result i => some (.result i)
  | _ => none

/-- The open handles after one engine call, from the open handles before it; `none`
when the call creates a handle that is already open or destroys a handle that is
not open (destroyed before, or never created). -/
def step_handles (opened : List Handle) (e : Event) : Option (List Handle) :=
  match e.creates, e.destroys with
  | some h, _ => if h ∈ opened then none else some (h :: opened)
  | none, some h => if h ∈ opened then some (opened.erase h) else none
  | none, none => some opened

/-- The open handles after a trace of engine calls; `none` when some call of the trace
breaks the handle discipline. -/
def open_handles : List Handle → List Event → Option (List Handle)
  | opened, [] => some opened
  | opened, e :: rest =>
    match step_handles opened e with
    | none => none
    | some opened' => open_handles opened' rest

/-- The host heap and the engine, as far as `database_close` touches them: the
`handle` field of every `Database` record allocated by `janet_abstract` (`none` is
a null handle), indexed by reference, and the engine databases that are open. -/
structure Heap where
  databases : List (Option Nat)
  open_databases : List Nat
  deriving DecidableEq, Repr

/-- The function `janet_abstract(&database_type, sizeof(Database))`: a new record,
whose `handle` field holds whatever the fresh memory holds (`junk`); returns its
reference. -/
def janet_abstract_database (junk : Option Nat) (h : Heap) : Nat × Heap :=
  (h.databases.length, { h with databases := h.databases ++ [junk] })

/-- The engine function `duckdb_close` on the `handle` field of record `ref`: a
non-null handle is closed and the field set to null. -/
def duckdb_close (ref : Nat) (h : Heap) : Heap :=
  match h.databases.getD ref none with
  | none => h
  | some d =>
    { databases := h.databases.set ref none,
      open_databases := h.open_databases.filter fun x => x ≠ d }

/-- The C function `database_close` (lines 56-61): after the arity check, `db` is a
record newly made by `janet_abstract`; `argv[0]` is not read. -/
def database_close (argv : List Janet) (junk : Option Nat) (h : Heap) :
    Except Err Janet × Heap :=
  if argv.length ≠ 1 then (.error (.HostArity argv.length), h)
  else
    match janet_abstract_database junk h with
    | (db, h') => (.ok .nil, duckdb_close db h')

/-- Whether the database value `db` holds an engine handle that is open. -/
def database_is_open (h : Heap) (db : Janet) : Bool :=
  match db with
  | .abstract .database_type ref =>
    match h.databases.getD ref none with
    | some d => decide (d ∈ h.open_databases)
    | none => false
  | _ => false

/-- A statement that the engine prepares, binds and executes without error, with `n`
declared parameters and result `r`. -/
def stmt_ok (n : Nat) (r : ResultSet) : Statement :=
  { prepare_ok := true, prepare_error := "", nparams := n,
    param_type := fun _ => .DUCKDB_TYPE_VARCHAR, bind_ok := fun _ => true,
    execute_ok := true, execute_error := "", result := r }

/-- A result without columns and rows. -/
def empty_result : ResultSet := { columns := [], row_count := 0, cell := fun _ _ => .null }

/-- An engine that extracts the batch `statements` from every source text. -/
def engine_of (statements : List Statement) : Engine :=
  { extract_statements := fun _ _ => statements,
    extract_statements_error := fun _ _ => "" }

/-- The 1-based parameter index an engine bind call names. -/
def BindCall.index : BindCall → Nat
  | .duckdb_bind_null i => i
  | .duckdb_bind_double i _ => i
  | .duckdb_bind_boolean i _ => i
  | .duckdb_bind_varchar_length i _ _ => i
  | .duckdb_bind_blob i _ _ => i

/-- Whether an engine call is a bind call. -/
def Event.is_bind : Event → Bool
  | .bind _ _ => true
  | _ => false

/-- The calls of a trace that are not bind calls, in order: the calls that create or
destroy a handle. -/
def control (t : List Event) : List Event := t.filter fun e => !e.is_bind

/-- The handle calls of one statement that completes, followed by the destruction of
its result. -/
def statement_calls (i : Nat) : List Event :=
  [.prepare_extracted_statement i, .execute_prepared i, .destroy_prepare i, .destroy_result i]

/-- The handle calls `execute_extracted_statement` can have made for statement `i`
when it panics: a failed prepare (or a bind failure that destroyed the prepared
statement), a bind failure that left it open, a failed execute. -/
def failed_statement_calls (i : Nat) (c : List Event) : Prop :=
  c = [.prepare_extracted_statement i, .destroy_prepare i] ∨
  c = [.prepare_extracted_statement i] ∨
  c = [.prepare_extracted_statement i, .execute_prepared i, .destroy_result i]

/-- A connection value. -/
def conn : Janet := .abstract .connection_type 0

/-- A source text (its statements are what the engine script says). -/
def source : Janet := .string [115, 113, 108]

/-- The result of `select * from t` after `insert into t values (1, 'x')`: columns
`a` (INTEGER) and `b` (VARCHAR), one row. -/
def result_t : ResultSet :=
  { columns := [([97], .DUCKDB_TYPE_INTEGER), ([98], .DUCKDB_TYPE_VARCHAR)],
    row_count := 1,
    cell := fun col _ => if col = 0 then .integer 1 else .varchar [120] }

/-- The batch of `create table t(a integer, b varchar); insert into t values (?, ?);
select * from t;`. -/
def batch_create_insert_select : List Statement :=
  [stmt_ok 0 empty_result, stmt_ok 2 empty_result, stmt_ok 0 result_t]

/-- The call `(eval conn sql 1 "x")`. -/
def argv_insert : List Janet := [conn, source, .number (.int 1), .string [120]]

/-- The trace of lines 193-201 for `batch_create_insert_select` and `argv_insert`. -/
def trace_create_insert_select : List Event :=
  [.prepare_extracted_statement 0, .execute_prepared 0, .destroy_prepare 0, .destroy_result 0,
    .prepare_extracted_statement 1, .bind 1 (.duckdb_bind_double 1 (.int 1)),
    .bind 1 (.duckdb_bind_varchar_length 2 [120] 1), .execute_prepared 1, .destroy_prepare 1,
    .destroy_result 1,
    .prepare_extracted_statement 2, .execute_prepared 2, .destroy_prepare 2]

/-- The call `(eval conn "select ?, ?;" 1 2 3)`. -/
def argv_three : List Janet := [conn, source, .number (.int 1), .number (.int 2), .number (.int 3)]

/-- The call `(eval conn "select ?;")`, without supplied values. -/
def argv_none : List Janet := [conn, source]

/-- A result with two columns named `a`, both INTEGER, and one row: 1 and NULL. -/
def result_dup_null_last : ResultSet :=
  { columns := [([97], .DUCKDB_TYPE_INTEGER), ([97], .DUCKDB_TYPE_INTEGER)],
    row_count := 1,
    cell := fun col _ => if col = 0 then .integer 1 else .null }

/-- A result with two columns named `x`, a VARCHAR and a BLOB, and one row: 'v' and
NULL. -/
def result_dup_text : ResultSet :=
  { columns := [([120], .DUCKDB_TYPE_VARCHAR), ([120], .DUCKDB_TYPE_BLOB)],
    row_count := 1,
    cell := fun col _ => if col = 0 then .varchar [118] else .null }

/-- A result with two columns named `a`, both INTEGER, and one row: 1 and 2. -/
def result_dup_values : ResultSet :=
  { columns := [([97], .DUCKDB_TYPE_INTEGER), ([97], .DUCKDB_TYPE_INTEGER)],
    row_count := 1,
    cell := fun col _ => if col = 0 then .integer 1 else .integer 2 }

/-- A result with one column `d` of an engine type that has no decoder, and one row:
NULL. -/
def result_null_undecodable : ResultSet :=
  { columns := [([100], .other 13)], row_count := 1, cell := fun _ _ => .null }

/-- A result with one UINTEGER column `u` and one row: 2147483648, that is 2^31. -/
def result_uinteger : ResultSet :=
  { columns := [([117], .DUCKDB_TYPE_UINTEGER)], row_count := 1,
    cell := fun _ _ => .integer 2147483648 }

/-- A heap with one `Database` record, holding the open engine database 7. -/
def heap_one : Heap := { databases := [some 7], open_databases := [7] }

/-- The database value that refers to record 0. -/
def db0 : Janet := .abstract .database_type 0

/-- A batch statement with two declared parameters. -/
def stmt_two_params : Statement := stmt_ok 2 empty_result

/-! ## Binding -/

theorem bind1_call_index (index : Nat) (arg : Janet) (call : BindCall)
    (h : bind1_call index arg = some call) : call.index = index := by
  cases arg with
  | other k => cases k <;> simp [bind1_call, janet_type] at h
  | abstract t r => simp [bind1_call, janet_type] at h
  | _ => simp [bind1_call, janet_type] at h; subst h; rfl

theorem bind1_ok (s : Statement) (k index : Nat) (arg : Janet) (t : List Event)
    (h : bind1 s k index arg = (.ok (), t)) :
    ∃ call, bind1_call index arg = some call ∧ t = [.bind k call] := by
  unfold bind1 at h
  cases hc : bind1_call index arg with
  | none => simp [hc] at h
  | some call =>
    refine ⟨call, rfl, ?_⟩
    simp only [hc] at h
    split_ifs at h <;> simp_all

theorem bind1_error (s : Statement) (k index : Nat) (arg : Janet) (e : Err) (t : List Event)
    (h : bind1 s k index arg = (.error e, t)) :
    t = [] ∨ (∃ call, t = [.bind k call]) ∨ (∃ call, t = [.bind k call, .destroy_prepare k]) := by
  unfold bind1 at h
  cases hc : bind1_call index arg with
  | none => simp [hc] at h; exact Or.inl h.2
  | some call =>
    simp only [hc] at h
    split_ifs at h
    · simp at h
    · simp at h; exact Or.inr (Or.inl ⟨call, h.2.symm⟩)
    · simp at h; exact Or.inr (Or.inr ⟨call, h.2.symm⟩)

/-- The trace of a `bind` that binds the slots `1..n` from `argv[offset..offset+n)`. -/
theorem bind_loop_ok (s : Statement) (k : Nat) (argv : List Janet) (offset n : Nat)
    (hn : offset + n ≤ argv.length)
    (hall : ∀ i, i < n → (bind1 s k (i + 1) (argv.getD (offset + i) .nil)).1 = .ok ()) :
    ∀ fuel i, i + fuel = n →
      bind_loop s k argv offset n fuel i =
        (.ok (), (List.range' i fuel).filterMap fun j =>
          (bind1_call (j + 1) (argv.getD (offset + j) .nil)).map (Event.bind k)) := by
  intro fuel
  induction fuel with
  | zero => intro i _; simp [bind_loop]
  | succ fuel ih =>
    intro i hi
    have hlt : i < n := by omega
    have hguard : offset + i < argv.length ∧ i < n := ⟨by omega, hlt⟩
    have h1 := hall i hlt
    obtain ⟨call, hcall, ht⟩ := bind1_ok s k (i + 1) (argv.getD (offset + i) .nil)
      (bind1 s k (i + 1) (argv.getD (offset + i) .nil)).2 (by
        rcases hb : bind1 s k (i + 1) (argv.getD (offset + i) .nil) with ⟨o, t⟩
        rw [hb] at h1
        simp at h1
        subst h1
        rfl)
    have hb : bind1 s k (i + 1) (argv.getD (offset + i) .nil) = (.ok (), [.bind k call]) := by
      rcases hb : bind1 s k (i + 1) (argv.getD (offset + i) .nil) with ⟨o, t⟩
      rw [hb] at h1 ht
      simp at h1 ht
      subst h1 ht
      rfl
    rw [bind_loop, if_pos hguard, hb, ih (i + 1) (by omega), List.range'_succ,
      List.filterMap_cons]
    simp only [hcall, Option.map_some', List.singleton_append]

theorem filterMap_all_some {α β : Type} (f : α → Option β) :
    ∀ l : List α, (∀ a, a ∈ l → ∃ b, f a = some b) →
      (l.filterMap f).length = l.length ∧
        ∀ i : Nat, (l.filterMap f)[i]? = l[i]?.bind f := by
  intro l
  induction l with
  | nil => intro _; simp
  | cons a l ih =>
    intro h
    obtain ⟨b, hb⟩ := h a (List.mem_cons_self a l)
    obtain ⟨hlen, hget⟩ := ih (fun x hx => h x (List.mem_cons_of_mem a hx))
    rw [List.filterMap_cons]
    simp only [hb]
    refine ⟨by simp [hlen], ?_⟩
    intro i
    cases i with
    | zero => simp [hb]
    | succ i => simpa using hget i

/-- C3: for a prepared statement with n declared parameters, an argument vector of
length argc and an offset at most argc: when argc - offset is below n, `bind` fails
with ArityError (given argc - offset, needed n) and makes no engine bind call; when
it is not, and every single bind succeeds, `bind` returns offset + n after exactly
n bind calls, the i-th of them naming slot i and carrying argv[offset + i - 1]. -/
theorem bind_many_contract (s : Statement) (k : Nat) (argv : List Janet) (offset : Nat)
    (hoff : offset ≤ argv.length) :
    (argv.length - offset < s.nparams →
      bind s k argv offset =
        (.error (.ArityError ((argv.length : Int) - offset) s.nparams), [])) ∧
    (¬ argv.length - offset < s.nparams →
      (∀ i, i < s.nparams → (bind1 s k (i + 1) (argv.getD (offset + i) .nil)).1 = .ok ()) →
      ∃ t, bind s k argv offset = (.ok (offset + s.nparams), t) ∧ t.length = s.nparams ∧
        ∀ i, i < s.nparams → ∃ call, t[i]? = some (.bind k call) ∧ call.index = i + 1 ∧
          bind1_call (i + 1) (argv.getD (offset + i) .nil) = some call) := by
  constructor
  · intro h
    have : offset + s.nparams > argv.length := by omega
    simp [bind, this]
  · intro h hall
    have hle : offset + s.nparams ≤ argv.length := by omega
    have hnot : ¬ offset + s.nparams > argv.length := by omega
    have hloop := bind_loop_ok s k argv offset s.nparams hle hall s.nparams 0 (by omega)
    have hsome : ∀ a, a ∈ List.range' 0 s.nparams →
        ∃ b, (bind1_call (a + 1) (argv.getD (offset + a) .nil)).map (Event.bind k) = some b := by
      intro a ha
      have ha' : a < s.nparams := by
        have := List.mem_range'_1.mp ha
        omega
      have h1 := hall a ha'
      rcases hb : bind1 s k (a + 1) (argv.getD (offset + a) .nil) with ⟨o, t⟩
      rw [hb] at h1
      simp only at h1
      subst h1
      obtain ⟨call, hcall, _⟩ := bind1_ok s k (a + 1) _ t hb
      exact ⟨.bind k call, by rw [hcall]; rfl⟩
    obtain ⟨hlen, hget⟩ := filterMap_all_some _ _ hsome
    refine ⟨_, by rw [bind, if_neg hnot, hloop], by simpa using hlen, ?_⟩
    intro i hi
    have h1 := hall i hi
    rcases hb : bind1 s k (i + 1) (argv.getD (offset + i) .nil) with ⟨o, t⟩
    rw [hb] at h1
    simp only at h1
    subst h1
    obtain ⟨call, hcall, _⟩ := bind1_ok s k (i + 1) _ t hb
    refine ⟨call, ?_, bind1_call_index _ _ _ hcall, hcall⟩
    rw [hget i, List.getElem?_range' _ _ hi]
    simp only [Option.some_bind, Nat.zero_add, Nat.one_mul, hcall, Option.map_some']

/-- Witness of C3: with two fixed arguments and two supplied values, `bind` at offset 2
binds both slots and returns 4. -/
theorem bind_many_contract_witness :
    ∃ t, bind stmt_two_params 0
        [.abstract .connection_type 0, .string [], .number (.int 1), .nil] 2 = (.ok 4, t) ∧
      t.length = 2 ∧
      ∀ i, i < 2 → ∃ call, t[i]? = some (.bind 0 call) ∧ call.index = i + 1 ∧
        bind1_call (i + 1)
          (([.abstract .connection_type 0, .string [], .number (.int 1), .nil] :
            List Janet).getD (2 + i) .nil) = some call :=
  (bind_many_contract stmt_two_params 0
    [.abstract .connection_type 0, .string [], .number (.int 1), .nil] 2 (by decide)).2
    (by decide)
    (by
      intro i hi
      have hi2 : i = 0 ∨ i = 1 := by change i < 2 at hi; omega
      rcases hi2 with rfl | rfl <;> rfl)

/-- C6, as the code has it: `bind1` fails with UnsupportedBindType, without any engine
bind call, for every value whose host kind is none of nil, number, boolean, string,
symbol, keyword and buffer, and for no value of those seven kinds. -/
theorem bind1_unsupported_iff (s : Statement) (k index : Nat) (arg : Janet) :
    (janet_type arg ∉ [JanetType.JANET_NIL, .JANET_NUMBER, .JANET_BOOLEAN, .JANET_STRING,
        .JANET_SYMBOL, .JANET_KEYWORD, .JANET_BUFFER] →
      bind1 s k index arg =
        (.error (.UnsupportedBindType arg index (s.param_type index)), [])) ∧
    (janet_type arg ∈ [JanetType.JANET_NIL, .JANET_NUMBER, .JANET_BOOLEAN, .JANET_STRING,
        .JANET_SYMBOL, .JANET_KEYWORD, .JANET_BUFFER] →
      ∀ a i ty t, bind1 s k index arg ≠ (.error (.UnsupportedBindType a i ty), t)) := by
  cases arg with
  | other k => cases k <;> simp [bind1, bind1_call, janet_type]
  | abstract t r => simp [bind1, bind1_call, janet_type]
  | _ =>
    simp only [bind1, bind1_call, janet_type]
    refine ⟨by simp, ?_⟩
    intro _ a i ty t
    split_ifs <;> simp

/-- Witness of C6: a host table is not bindable, and no engine bind call is made. -/
theorem bind1_unsupported_iff_witness :
    bind1 (stmt_ok 1 empty_result) 0 1 (.other .table) =
      (.error (.UnsupportedBindType (.other .table) 1 .DUCKDB_TYPE_VARCHAR), []) :=
  (bind1_unsupported_iff (stmt_ok 1 empty_result) 0 1 (.other .table)).1 (by decide)

/-- C6 fails as stated: a keyword is none of Nil, Number, Bool, Text (host string) and
Bytes (host buffer), and `bind1` binds it with `duckdb_bind_varchar_length`. -/
theorem bind1_keyword_is_bound :
    janet_type (.keyword [97]) ∉ [JanetType.JANET_NIL, .JANET_NUMBER, .JANET_BOOLEAN,
        .JANET_STRING, .JANET_BUFFER] ∧
      bind1 (stmt_ok 1 empty_result) 0 1 (.keyword [97]) =
        (.ok (), [.bind 0 (.duckdb_bind_varchar_length 1 [97] 1)]) :=
  ⟨by decide, rfl⟩

/-! ## The handle calls of the pipeline -/

theorem control_append (a b : List Event) : control (a ++ b) = control a ++ control b :=
  List.filter_append _ _

theorem bind_loop_control (s : Statement) (k : Nat) (argv : List Janet) (offset n : Nat) :
    ∀ fuel i o t, bind_loop s k argv offset n fuel i = (o, t) →
      (∀ u, o = .ok u → control t = []) ∧
      (∀ e, o = .error e → control t = [] ∨ control t = [.destroy_prepare k]) := by
  intro fuel
  induction fuel with
  | zero =>
    intro i o t h
    simp only [bind_loop, Prod.mk.injEq] at h
    obtain ⟨rfl, rfl⟩ := h
    simp [control]
  | succ fuel ih =>
    intro i o t h
    rw [bind_loop] at h
    split_ifs at h with hg
    · rcases hb : bind1 s k (i + 1) (argv.getD (offset + i) .nil) with ⟨o1, t1⟩
      rw [hb] at h
      cases o1 with
      | error e1 =>
        simp only [Prod.mk.injEq] at h
        obtain ⟨rfl, rfl⟩ := h
        refine ⟨(by intro u hu; cases hu), ?_⟩
        intro e _
        rcases bind1_error s k _ _ e1 t1 hb with h0 | ⟨call, h1⟩ | ⟨call, h2⟩
        · subst h0; left; rfl
        · subst h1; left; rfl
        · subst h2; right; rfl
      | ok u1 =>
        obtain ⟨call, _, ht1⟩ := bind1_ok s k _ _ t1 hb
        rcases hr : bind_loop s k argv offset n fuel (i + 1) with ⟨o2, t2⟩
        rw [hr] at h
        simp only [Prod.mk.injEq] at h
        obtain ⟨rfl, rfl⟩ := h
        have hc : control (t1 ++ t2) = control t2 := by
          rw [control_append, ht1]; rfl
        rw [hc]
        exact ih (i + 1) o2 t2 hr
    · simp only [Prod.mk.injEq] at h
      obtain ⟨rfl, rfl⟩ := h
      simp [control]

theorem bind_control (s : Statement) (k : Nat) (argv : List Janet) (offset : Nat)
    (o : Except Err Nat) (t : List Event) (h : bind s k argv offset = (o, t)) :
    (∀ off, o = .ok off →
      off = offset + s.nparams ∧ offset + s.nparams ≤ argv.length ∧ control t = []) ∧
    (∀ e, o = .error e → control t = [] ∨ control t = [.destroy_prepare k]) := by
  rw [bind] at h
  split_ifs at h with hg
  · simp only [Prod.mk.injEq] at h
    obtain ⟨rfl, rfl⟩ := h
    exact ⟨(by intro off ho; cases ho), (by intro e _; left; rfl)⟩
  · rcases hl : bind_loop s k argv offset s.nparams s.nparams 0 with ⟨o1, t1⟩
    rw [hl] at h
    have hc := bind_loop_control s k argv offset s.nparams s.nparams 0 o1 t1 hl
    cases o1 with
    | error e1 =>
      simp only [Prod.mk.injEq] at h
      obtain ⟨rfl, rfl⟩ := h
      exact ⟨(by intro off ho; cases ho), fun e _ => hc.2 e1 rfl⟩
    | ok u =>
      simp only [Prod.mk.injEq] at h
      obtain ⟨rfl, rfl⟩ := h
      refine ⟨?_, (by intro e he; cases he)⟩
      intro off ho
      cases ho
      exact ⟨rfl, by omega, hc.1 u rfl⟩

theorem execute_ok (statements : List Statement) (i : Nat) (argv : List Janet)
    (off off' : Nat) (r : ResultSet) (t : List Event)
    (h : execute_extracted_statement statements i argv off = (.ok (off', r), t)) :
    ∃ s, statements[i]? = some s ∧ off' = off + s.nparams ∧ off' ≤ argv.length ∧
      r = s.result ∧
      control t = [.prepare_extracted_statement i, .execute_prepared i, .destroy_prepare i] := by
  rw [execute_extracted_statement] at h
  cases hs : statements[i]? with
  | none => simp [hs] at h
  | some s =>
    simp only [hs] at h
    by_cases hp : s.prepare_ok = false
    · simp [hp] at h
    · rw [if_neg hp] at h
      rcases hb : bind s i argv off with ⟨o1, t1⟩
      rw [hb] at h
      have hc := bind_control s i argv off o1 t1 hb
      cases o1 with
      | error e1 => simp at h
      | ok off1 =>
        simp only at h
        by_cases he : s.execute_ok = false
        · simp [he] at h
        · rw [if_neg he] at h
          obtain ⟨h1, h2⟩ := Prod.mk.inj h
          injection h1 with h1
          obtain ⟨h1a, h1b⟩ := Prod.mk.inj h1
          subst h1a h1b h2
          obtain ⟨h1, h2, h3⟩ := hc.1 off1 rfl
          refine ⟨s, rfl, h1, by omega, rfl, ?_⟩
          have : control (Event.prepare_extracted_statement i :: t1 ++
              [Event.execute_prepared i, Event.destroy_prepare i]) =
              Event.prepare_extracted_statement i :: (control t1 ++
                [Event.execute_prepared i, Event.destroy_prepare i]) := by
            rw [List.cons_append, ← List.singleton_append, control_append, control_append]; rfl
          rw [this, h3]; rfl

theorem execute_error (statements : List Statement) (i : Nat) (argv : List Janet)
    (off : Nat) (e : Err) (t : List Event)
    (h : execute_extracted_statement statements i argv off = (.error e, t)) :
    failed_statement_calls i (control t) := by
  rw [execute_extracted_statement] at h
  cases hs : statements[i]? with
  | none =>
    simp only [hs] at h
    obtain ⟨_, h2⟩ := Prod.mk.inj h
    subst h2
    left; rfl
  | some s =>
    simp only [hs] at h
    by_cases hp : s.prepare_ok = false
    · rw [if_pos hp] at h
      obtain ⟨_, h2⟩ := Prod.mk.inj h
      subst h2
      left; rfl
    · rw [if_neg hp] at h
      rcases hb : bind s i argv off with ⟨o1, t1⟩
      rw [hb] at h
      have hc := bind_control s i argv off o1 t1 hb
      cases o1 with
      | error e1 =>
        obtain ⟨_, h2⟩ := Prod.mk.inj h
        subst h2
        have hcons : control (Event.prepare_extracted_statement i :: t1) =
            Event.prepare_extracted_statement i :: control t1 := by
          rw [← List.singleton_append, control_append]; rfl
        rcases hc.2 e1 rfl with h0 | h1
        · right; left; rw [hcons, h0]
        · left; rw [hcons, h1]
      | ok off1 =>
        simp only at h
        by_cases he : s.execute_ok = false
        · rw [if_pos he] at h
          obtain ⟨_, h2⟩ := Prod.mk.inj h
          subst h2
          obtain ⟨_, _, h3⟩ := hc.1 off1 rfl
          right; right
          have : control (Event.prepare_extracted_statement i :: t1 ++
              [Event.execute_prepared i, Event.destroy_result i]) =
              Event.prepare_extracted_statement i :: (control t1 ++
                [Event.execute_prepared i, Event.destroy_result i]) := by
            rw [List.cons_append, ← List.singleton_append, control_append, control_append]; rfl
          rw [this, h3]; rfl
        · simp [he] at h

theorem control_cons_destroy_result (i : Nat) (t : List Event) :
    control (Event.destroy_result i :: t) = Event.destroy_result i :: control t := by
  rw [← List.singleton_append, control_append]; rfl

theorem statements_loop_ok (statements : List Statement) (argv : List Janet) (last : Nat) :
    ∀ fuel i off off' t, i + fuel = last → last ≤ statements.length →
      statements_loop statements argv last fuel i off = (.ok off', t) →
      off' = off + (((statements.drop i).take fuel).map Statement.nparams).sum ∧
      control t = (List.range' i fuel).flatMap statement_calls := by
  intro fuel
  induction fuel with
  | zero =>
    intro i off off' t _ _ h
    obtain ⟨h1, h2⟩ := Prod.mk.inj h
    injection h1 with h1
    subst h1 h2
    simp [control]
  | succ fuel ih =>
    intro i off off' t hi hlast h
    have hg : i < last := by omega
    rw [statements_loop, if_pos hg] at h
    rcases he : execute_extracted_statement statements i argv off with ⟨o1, t1⟩
    rw [he] at h
    cases o1 with
    | error e1 => simp at h
    | ok p =>
      obtain ⟨off1, r1⟩ := p
      obtain ⟨s, hs, hoff1, _, _, hc1⟩ := execute_ok statements i argv off off1 r1 t1 he
      rcases hr : statements_loop statements argv last fuel (i + 1) off1 with ⟨o2, t2⟩
      simp only at h
      rw [hr] at h
      obtain ⟨h1, h2⟩ := Prod.mk.inj h
      subst h1 h2
      obtain ⟨ih1, ih2⟩ := ih (i + 1) off1 off' t2 (by omega) hlast hr
      obtain ⟨hlt, hget⟩ := List.getElem?_eq_some.mp hs
      constructor
      · rw [List.drop_eq_getElem_cons hlt, List.take_succ_cons, List.map_cons, List.sum_cons,
          hget, ih1, hoff1]
        omega
      · rw [control_append, control_cons_destroy_result, hc1, ih2, List.range'_succ,
          List.flatMap_cons]
        rfl

theorem statements_loop_error (statements : List Statement) (argv : List Janet) (last : Nat) :
    ∀ fuel i off e t, i + fuel = last →
      statements_loop statements argv last fuel i off = (.error e, t) →
      ∃ j c, i ≤ j ∧ j < last ∧ failed_statement_calls j c ∧
        control t = (List.range' i (j - i)).flatMap statement_calls ++ c := by
  intro fuel
  induction fuel with
  | zero =>
    intro i off e t _ h
    obtain ⟨h1, _⟩ := Prod.mk.inj h
    cases h1
  | succ fuel ih =>
    intro i off e t hi h
    have hg : i < last := by omega
    rw [statements_loop, if_pos hg] at h
    rcases he : execute_extracted_statement statements i argv off with ⟨o1, t1⟩
    rw [he] at h
    cases o1 with
    | error e1 =>
      obtain ⟨_, h2⟩ := Prod.mk.inj h
      subst h2
      exact ⟨i, control t1, le_refl i, hg, execute_error statements i argv off e1 t1 he,
        by simp⟩
    | ok p =>
      obtain ⟨off1, r1⟩ := p
      obtain ⟨s, _, _, _, _, hc1⟩ := execute_ok statements i argv off off1 r1 t1 he
      rcases hr : statements_loop statements argv last fuel (i + 1) off1 with ⟨o2, t2⟩
      simp only at h
      rw [hr] at h
      obtain ⟨h1, h2⟩ := Prod.mk.inj h
      subst h1 h2
      obtain ⟨j, c, hj1, hj2, hshape, hc⟩ := ih (i + 1) off1 e t2 (by omega) hr
      refine ⟨j, c, by omega, hj2, hshape, ?_⟩
      have hji : j - i = (j - (i + 1)) + 1 := by omega
      rw [control_append, control_cons_destroy_result, hc1, hc, hji, List.range'_succ,
        List.flatMap_cons]
      rfl

theorem execute_statements_ok (statements : List Statement) (argv : List Janet)
    (off : Nat) (r : ResultSet) (t : List Event)
    (h : execute_statements statements argv = (.ok (off, r), t)) :
    (∃ s, statements[statements.length - 1]? = some s ∧ r = s.result) ∧
      off = 2 + (statements.map Statement.nparams).sum ∧
      control t = (List.range' 0 (statements.length - 1)).flatMap statement_calls ++
        [.prepare_extracted_statement (statements.length - 1),
          .execute_prepared (statements.length - 1),
          .destroy_prepare (statements.length - 1)] := by
  rw [execute_statements] at h
  rcases hl : statements_loop statements argv (statements.length - 1)
      (statements.length - 1) 0 2 with ⟨o1, t1⟩
  rw [hl] at h
  cases o1 with
  | error e1 => simp at h
  | ok off1 =>
    obtain ⟨hsum, hc1⟩ := statements_loop_ok statements argv (statements.length - 1)
      (statements.length - 1) 0 2 off1 t1 (by omega) (by omega) hl
    rcases he : execute_extracted_statement statements (statements.length - 1) argv off1
      with ⟨o2, t2⟩
    simp only at h
    rw [he] at h
    obtain ⟨h1, h2⟩ := Prod.mk.inj h
    subst h1 h2
    obtain ⟨s, hs, hoff, _, hr, hc2⟩ :=
      execute_ok statements (statements.length - 1) argv off1 off r t2 he
    refine ⟨⟨s, hs, hr⟩, ?_, by rw [control_append, hc1, hc2]⟩
    obtain ⟨hlt, hget⟩ := List.getElem?_eq_some.mp hs
    have hsplit : statements =
        statements.take (statements.length - 1) ++ [s] := by
      conv_lhs => rw [← List.take_append_drop (statements.length - 1) statements]
      rw [List.drop_eq_getElem_cons hlt, hget]
      have : statements.length - 1 + 1 = statements.length := by omega
      rw [this, List.drop_length]
    rw [hoff, hsum, List.drop_zero]
    conv_rhs => rw [hsplit]
    rw [List.map_append, List.sum_append]
    simp
    omega

theorem execute_statements_error (statements : List Statement) (argv : List Janet)
    (e : Err) (t : List Event) (hne : statements.length ≠ 0)
    (h : execute_statements statements argv = (.error e, t)) :
    ∃ j c, j < statements.length ∧ failed_statement_calls j c ∧
      control t = (List.range' 0 j).flatMap statement_calls ++ c := by
  rw [execute_statements] at h
  rcases hl : statements_loop statements argv (statements.length - 1)
      (statements.length - 1) 0 2 with ⟨o1, t1⟩
  rw [hl] at h
  cases o1 with
  | error e1 =>
    obtain ⟨_, h2⟩ := Prod.mk.inj h
    subst h2
    obtain ⟨j, c, _, hj, hshape, hc⟩ := statements_loop_error statements argv
      (statements.length - 1) (statements.length - 1) 0 2 e1 t1 (by omega) hl
    exact ⟨j, c, by omega, hshape, by simpa using hc⟩
  | ok off1 =>
    obtain ⟨_, hc1⟩ := statements_loop_ok statements argv (statements.length - 1)
      (statements.length - 1) 0 2 off1 t1 (by omega) (by omega) hl
    rcases he : execute_extracted_statement statements (statements.length - 1) argv off1
      with ⟨o2, t2⟩
    simp only at h
    rw [he] at h
    obtain ⟨h1, h2⟩ := Prod.mk.inj h
    subst h1 h2
    exact ⟨statements.length - 1, control t2, by omega,
      execute_error statements _ argv off1 e t2 he, by rw [control_append, hc1]⟩

/-! ## Open handles along a trace -/

theorem open_handles_append (a b : List Event) :
    ∀ opened, open_handles opened (a ++ b) =
      (open_handles opened a).bind fun opened' => open_handles opened' b := by
  induction a with
  | nil => intro opened; rfl
  | cons e a ih =>
    intro opened
    rw [List.cons_append, open_handles, open_handles]
    cases step_handles opened e with
    | none => rfl
    | some opened' => exact ih opened'

theorem open_handles_control (t : List Event) :
    ∀ opened, open_handles opened t = open_handles opened (control t) := by
  induction t with
  | nil => intro opened; rfl
  | cons e t ih =>
    intro opened
    cases e with
    | bind k call =>
      have hc : control (Event.bind k call :: t) = control t := rfl
      rw [hc, open_handles]
      exact ih opened
    | _ =>
      all_goals
        first
        | (rw [show ∀ x : Event, x.is_bind = false → control (x :: t) = x :: control t from
              fun x hx => by simp [control, hx]]
           · rw [open_handles, open_handles]
             cases step_handles opened _ with
             | none => rfl
             | some opened' => exact ih opened'
           · rfl)

theorem open_handles_statement_calls (i : Nat) :
    open_handles [.extracted] (statement_calls i) = some [.extracted] := by
  simp [statement_calls, open_handles, step_handles, Event.creates, Event.destroys]

theorem open_handles_completed :
    ∀ n i, open_handles [.extracted] ((List.range' i n).flatMap statement_calls) =
      some [.extracted] := by
  intro n
  induction n with
  | zero => intro i; rfl
  | succ n ih =>
    intro i
    rw [List.range'_succ, List.flatMap_cons, open_handles_append,
      open_handles_statement_calls]
    exact ih (i + 1)

theorem open_handles_failed (j : Nat) (c : List Event) (h : failed_statement_calls j c) :
    open_handles [.extracted] c = some [.extracted] ∨
      open_handles [.extracted] c = some [.prepared j, .extracted] := by
  rcases h with h | h | h <;> subst h <;>
    simp [open_handles, step_handles, Event.creates, Event.destroys]

/-! ## The pipeline -/

theorem rows_loop_ok (r : ResultSet) (colnames : List Janet) :
    ∀ fuel row acc rows, row + fuel = r.row_count →
      rows_loop r colnames fuel row acc = .ok rows →
      rows.map Except.ok =
        acc.map Except.ok ++ (List.range' row fuel).map (build_row r colnames) := by
  intro fuel
  induction fuel with
  | zero =>
    intro row acc rows _ h
    rw [rows_loop] at h
    injection h with h
    subst h
    simp
  | succ fuel ih =>
    intro row acc rows hrow h
    have hg : row < r.row_count := by omega
    rw [rows_loop, if_pos hg] at h
    cases hb : build_row r colnames row with
    | error e => rw [hb] at h; cases h
    | ok st =>
      rw [hb] at h
      simp only at h
      rw [ih (row + 1) (acc ++ [st]) rows (by omega) h, List.range'_succ, List.map_cons, hb]
      simp

theorem materialize_ok (r : ResultSet) (rows : List (List (Janet × Janet)))
    (h : materialize r = .ok rows) :
    rows.map Except.ok = (List.range r.row_count).map (build_row r (column_keywords r)) := by
  have := rows_loop_ok r (column_keywords r) r.row_count 0 [] rows (by omega) h
  rw [List.range_eq_range']
  simpa using this

theorem control_cons_extract (t : List Event) :
    control (Event.extract_statements :: t) = Event.extract_statements :: control t := by
  rw [← List.singleton_append, control_append]; rfl

theorem eval_extracted_ok (statements : List Statement) (err : String) (argv : List Janet)
    (rows : List (List (Janet × Janet))) (t : List Event)
    (h : eval_extracted statements err argv = (.ok rows, t)) :
    ∃ off r t0, execute_statements statements argv = (.ok (off, r), t0) ∧
      off = argv.length ∧ materialize r = .ok rows ∧
      t = .extract_statements :: t0 ++
        [.destroy_result (statements.length - 1), .destroy_extracted] := by
  rw [eval_extracted] at h
  by_cases h0 : statements.length = 0
  · rw [if_pos h0] at h
    obtain ⟨h1, _⟩ := Prod.mk.inj h
    cases h1
  · rw [if_neg h0] at h
    rcases he : execute_statements statements argv with ⟨o1, t1⟩
    rw [he] at h
    cases o1 with
    | error e1 =>
      obtain ⟨h1, _⟩ := Prod.mk.inj h
      cases h1
    | ok p =>
      obtain ⟨off, r⟩ := p
      simp only at h
      by_cases hoff : off ≠ argv.length
      · rw [if_pos hoff] at h
        obtain ⟨h1, _⟩ := Prod.mk.inj h
        cases h1
      · rw [if_neg hoff] at h
        cases hm : materialize r with
        | error e2 =>
          rw [hm] at h
          obtain ⟨h1, _⟩ := Prod.mk.inj h
          cases h1
        | ok rows' =>
          rw [hm] at h
          obtain ⟨h1, h2⟩ := Prod.mk.inj h
          injection h1 with h1
          subst h1 h2
          exact ⟨off, r, t1, rfl, not_not.mp hoff, hm, rfl⟩

theorem eval_extracted_error (statements : List Statement) (err : String)
    (argv : List Janet) (e : Err) (t : List Event) (hne : statements.length ≠ 0)
    (h : eval_extracted statements err argv = (.error e, t)) :
    (∃ j c, j < statements.length ∧ failed_statement_calls j c ∧
      control t = .extract_statements :: ((List.range' 0 j).flatMap statement_calls ++ c)) ∨
    control t = .extract_statements ::
      ((List.range' 0 (statements.length - 1)).flatMap statement_calls ++
        [.prepare_extracted_statement (statements.length - 1),
          .execute_prepared (statements.length - 1),
          .destroy_prepare (statements.length - 1)]) := by
  rw [eval_extracted, if_neg hne] at h
  rcases he : execute_statements statements argv with ⟨o1, t1⟩
  rw [he] at h
  cases o1 with
  | error e1 =>
    obtain ⟨_, h2⟩ := Prod.mk.inj h
    subst h2
    obtain ⟨j, c, hj, hshape, hc⟩ := execute_statements_error statements argv e1 t1 hne he
    left
    exact ⟨j, c, hj, hshape, by rw [control_cons_extract, hc]⟩
  | ok p =>
    obtain ⟨off, r⟩ := p
    obtain ⟨_, _, hc⟩ := execute_statements_ok statements argv off r t1 he
    simp only at h
    right
    by_cases hoff : off ≠ argv.length
    · rw [if_pos hoff] at h
      obtain ⟨_, h2⟩ := Prod.mk.inj h
      subst h2
      rw [control_cons_extract, hc]
    · rw [if_neg hoff] at h
      cases hm : materialize r with
      | error e2 =>
        rw [hm] at h
        obtain ⟨_, h2⟩ := Prod.mk.inj h
        subst h2
        rw [control_cons_extract, hc]
      | ok rows' =>
        rw [hm] at h
        obtain ⟨h1, _⟩ := Prod.mk.inj h
        cases h1

theorem connection_eval_of_args (E : Engine) (argv : List Janet) (c : Nat) (query : Bytes)
    (hc : janet_getabstract argv 0 .connection_type = .ok c)
    (hq : janet_getcstring argv 1 = .ok query) :
    2 ≤ argv.length ∧
      connection_eval E argv =
        eval_extracted (E.extract_statements c query) (E.extract_statements_error c query)
          argv := by
  have hlen : 2 ≤ argv.length := by
    by_contra hlt
    have h1 : argv.getD 1 .nil = .nil := by
      rw [List.getD_eq_default]
      omega
    rw [janet_getcstring, h1] at hq
    cases hq
  refine ⟨hlen, ?_⟩
  have : ¬ argv.length < 2 := by omega
  rw [connection_eval, if_neg this, hc, hq]

theorem connection_eval_cases (E : Engine) (argv : List Janet) :
    (∃ e, connection_eval E argv = (.error e, [])) ∨
    ∃ c query, janet_getabstract argv 0 .connection_type = .ok c ∧
      janet_getcstring argv 1 = .ok query := by
  by_cases hlt : argv.length < 2
  · left
    exact ⟨_, by rw [connection_eval, if_pos hlt]⟩
  · cases hc : janet_getabstract argv 0 .connection_type with
    | error e =>
      left
      exact ⟨e, by rw [connection_eval, if_neg hlt, hc]⟩
    | ok c =>
      cases hq : janet_getcstring argv 1 with
      | error e =>
        left
        exact ⟨e, by rw [connection_eval, if_neg hlt, hc, hq]⟩
      | ok query => right; exact ⟨c, query, rfl, rfl⟩

/-! ## Decoding failures -/

theorem decode_cell_error (r : ResultSet) (col row : Nat) (e : Err)
    (h : decode_cell r col row = .error e) : e = .UnknownColumnType col row := by
  unfold decode_cell at h
  split at h <;> first | (injection h with h; exact h.symm) | cases h

theorem columns_loop_error (r : ResultSet) (colnames : List Janet) (row : Nat) :
    ∀ fuel col st e, columns_loop r colnames row fuel col st = .error e →
      ∃ col', col ≤ col' ∧ col' < duckdb_column_count r ∧
        duckdb_value_is_null r col' row = false ∧ e = .UnknownColumnType col' row := by
  intro fuel
  induction fuel with
  | zero => intro col st e h; rw [columns_loop] at h; cases h
  | succ fuel ih =>
    intro col st e h
    rw [columns_loop] at h
    by_cases hg : col < duckdb_column_count r
    · rw [if_pos hg] at h
      cases hn : duckdb_value_is_null r col row with
      | true =>
        rw [hn] at h
        simp only [if_true] at h
        obtain ⟨col', h1, h2⟩ := ih (col + 1) st e h
        exact ⟨col', by omega, h2⟩
      | false =>
        rw [hn] at h
        simp only [Bool.false_eq_true, if_false] at h
        cases hd : decode_cell r col row with
        | error e1 =>
          rw [hd] at h
          injection h with h
          subst h
          exact ⟨col, le_refl col, hg, hn, decode_cell_error r col row e1 hd⟩
        | ok v =>
          rw [hd] at h
          obtain ⟨col', h1, h2⟩ := ih (col + 1) _ e h
          exact ⟨col', by omega, h2⟩
    · rw [if_neg hg] at h; cases h

theorem build_row_error (r : ResultSet) (colnames : List Janet) (row : Nat) (e : Err)
    (h : build_row r colnames row = .error e) :
    ∃ col, col < duckdb_column_count r ∧ duckdb_value_is_null r col row = false ∧
      e = .UnknownColumnType col row := by
  rw [build_row] at h
  cases hl : columns_loop r colnames row (duckdb_column_count r) 0
      (janet_struct_begin (duckdb_column_count r)) with
  | error e1 =>
    rw [hl] at h
    injection h with h
    subst h
    obtain ⟨col, _, h2⟩ := columns_loop_error r colnames row _ _ _ e1 hl
    exact ⟨col, h2⟩
  | ok st => rw [hl] at h; cases h

theorem rows_loop_error (r : ResultSet) (colnames : List Janet) :
    ∀ fuel row acc e, rows_loop r colnames fuel row acc = .error e →
      ∃ col row', e = .UnknownColumnType col row' := by
  intro fuel
  induction fuel with
  | zero => intro row acc e h; rw [rows_loop] at h; cases h
  | succ fuel ih =>
    intro row acc e h
    rw [rows_loop] at h
    by_cases hg : row < r.row_count
    · rw [if_pos hg] at h
      cases hb : build_row r colnames row with
      | error e1 =>
        rw [hb] at h
        injection h with h
        subst h
        obtain ⟨col, _, _, he⟩ := build_row_error r colnames row e1 hb
        exact ⟨col, row, he⟩
      | ok st =>
        rw [hb] at h
        exact ih (row + 1) _ e h
    · rw [if_neg hg] at h; cases h

theorem materialize_error (r : ResultSet) (e : Err) (h : materialize r = .error e) :
    ∃ col row, e = .UnknownColumnType col row :=
  rows_loop_error r (column_keywords r) r.row_count 0 [] e h

/-! ## The contract of `connection_eval` -/

/-- C2: when every statement of the batch prepares, binds and executes without error,
the bind cursor after the last statement is 2 plus the sum of the declared parameter
counts; the call fails with ArgumentsNotConsumed, reporting that sum as bound and the
number of supplied values as total, exactly when the two differ; and a call that
returns records ended with the cursor equal to the argument count. -/
theorem bind_cursor_consumes_arguments (E : Engine) (argv : List Janet) (c : Nat)
    (query : Bytes) (off : Nat) (r : ResultSet) (t0 : List Event)
    (hc : janet_getabstract argv 0 .connection_type = .ok c)
    (hq : janet_getcstring argv 1 = .ok query)
    (hexec : execute_statements (E.extract_statements c query) argv = (.ok (off, r), t0)) :
    off = 2 + ((E.extract_statements c query).map Statement.nparams).sum ∧
    ((connection_eval E argv).1 =
        .error (.ArgumentsNotConsumed
          ((((E.extract_statements c query).map Statement.nparams).sum : Nat) : Int)
          ((argv.length - 2 : Nat) : Int)) ↔
      ((E.extract_statements c query).map Statement.nparams).sum ≠ argv.length - 2) ∧
    (∀ rows, (connection_eval E argv).1 = .ok rows → off = argv.length) := by
  obtain ⟨hlen, heval⟩ := connection_eval_of_args E argv c query hc hq
  obtain ⟨⟨s, hs, _⟩, hoff, _⟩ :=
    execute_statements_ok (E.extract_statements c query) argv off r t0 hexec
  have hne : ¬ (E.extract_statements c query).length = 0 := by
    obtain ⟨hlt, _⟩ := List.getElem?_eq_some.mp hs
    omega
  refine ⟨hoff, ?_, ?_⟩
  · rw [heval, eval_extracted, if_neg hne, hexec]
    simp only
    by_cases hd : off ≠ argv.length
    · rw [if_pos hd]
      have h1 : ((off : Int) - 2) =
          ((((E.extract_statements c query).map Statement.nparams).sum : Nat) : Int) := by
        omega
      have h2 : ((argv.length : Int) - 2) = ((argv.length - 2 : Nat) : Int) := by omega
      rw [h1, h2]
      constructor
      · intro _; omega
      · intro _; rfl
    · rw [if_neg hd]
      have hd' : off = argv.length := not_not.mp hd
      constructor
      · intro h
        exfalso
        cases hm : materialize r with
        | error e =>
          rw [hm] at h
          obtain ⟨col, row, he⟩ := materialize_error r e hm
          subst he
          simp at h
        | ok rows => rw [hm] at h; simp at h
      · intro h; omega
  · intro rows h
    rw [heval] at h
    rcases hev : eval_extracted (E.extract_statements c query)
      (E.extract_statements_error c query) argv with ⟨o, t⟩
    rw [hev] at h
    simp only at h
    subst h
    obtain ⟨off', r', t0', hexec', hoff', _⟩ := eval_extracted_ok _ _ _ _ _ hev
    rw [hexec] at hexec'
    obtain ⟨h1, _⟩ := Prod.mk.inj hexec'
    injection h1 with h1
    obtain ⟨h1, _⟩ := Prod.mk.inj h1
    omega

/-- Witness of C2: `select ?, ?;` with three supplied values fails with
ArgumentsNotConsumed, bound 2 of 3. -/
theorem bind_cursor_consumes_arguments_witness :
    (connection_eval (engine_of [stmt_ok 2 empty_result]) argv_three).1 =
      .error (.ArgumentsNotConsumed 2 3) :=
  (bind_cursor_consumes_arguments (engine_of [stmt_ok 2 empty_result]) argv_three 0
    [115, 113, 108] 4 empty_result
    [.prepare_extracted_statement 0, .bind 0 (.duckdb_bind_double 1 (.int 1)),
      .bind 0 (.duckdb_bind_double 2 (.int 2)), .execute_prepared 0, .destroy_prepare 0]
    rfl rfl rfl).2.1.mpr (by decide)

/-- C4: when the statements of the batch all execute successfully (the batch then has
k >= 1 statements), they are prepared and executed in index order, the result of
every statement before the last is destroyed before the next statement is prepared,
the kept result is the one of statement k-1, and a call that returns gives one struct
per row of that result, in row order, struct r being the one built from row r of
that result. -/
theorem eval_keeps_last_result (E : Engine) (argv : List Janet) (c : Nat)
    (query : Bytes) (off : Nat) (r : ResultSet) (t0 : List Event)
    (hc : janet_getabstract argv 0 .connection_type = .ok c)
    (hq : janet_getcstring argv 1 = .ok query)
    (hexec : execute_statements (E.extract_statements c query) argv = (.ok (off, r), t0)) :
    1 ≤ (E.extract_statements c query).length ∧
    control t0 =
      (List.range ((E.extract_statements c query).length - 1)).flatMap statement_calls ++
        [.prepare_extracted_statement ((E.extract_statements c query).length - 1),
          .execute_prepared ((E.extract_statements c query).length - 1),
          .destroy_prepare ((E.extract_statements c query).length - 1)] ∧
    (∃ s, (E.extract_statements c query)[(E.extract_statements c query).length - 1]? = some s ∧
      r = s.result) ∧
    (∀ rows t, connection_eval E argv = (.ok rows, t) →
      t = .extract_statements :: t0 ++
        [.destroy_result ((E.extract_statements c query).length - 1), .destroy_extracted] ∧
      rows.length = r.row_count ∧
      rows.map Except.ok = (List.range r.row_count).map (build_row r (column_keywords r))) := by
  obtain ⟨_, heval⟩ := connection_eval_of_args E argv c query hc hq
  obtain ⟨hlast, _, hctl⟩ :=
    execute_statements_ok (E.extract_statements c query) argv off r t0 hexec
  have hk : 1 ≤ (E.extract_statements c query).length := by
    obtain ⟨s, hs, _⟩ := hlast
    obtain ⟨hlt, _⟩ := List.getElem?_eq_some.mp hs
    omega
  refine ⟨hk, by rw [hctl, List.range_eq_range'], hlast, ?_⟩
  intro rows t h
  rw [heval] at h
  obtain ⟨off', r', t0', hexec', _, hm, ht⟩ := eval_extracted_ok _ _ _ _ _ h
  rw [hexec] at hexec'
  obtain ⟨h1, h2⟩ := Prod.mk.inj hexec'
  injection h1 with h1
  obtain ⟨_, h1⟩ := Prod.mk.inj h1
  subst h1 h2
  have hrows := materialize_ok r rows hm
  refine ⟨ht, ?_, hrows⟩
  have := congrArg List.length hrows
  simpa using this

/-- Witness of C4: the three-statement batch of the specification's example returns
the one row of its last statement, after the handle calls of the three statements in
order. -/
theorem eval_keeps_last_result_witness :
    control trace_create_insert_select =
      (List.range 2).flatMap statement_calls ++
        [.prepare_extracted_statement 2, .execute_prepared 2, .destroy_prepare 2] ∧
    [[(Janet.keyword [97], Janet.number (.int 1)),
        (Janet.keyword [98], Janet.string [120])]].map Except.ok =
      (List.range 1).map (build_row result_t (column_keywords result_t)) :=
  ⟨(eval_keeps_last_result (engine_of batch_create_insert_select) argv_insert 0
      [115, 113, 108] 4 result_t trace_create_insert_select rfl rfl rfl).2.1,
    ((eval_keeps_last_result (engine_of batch_create_insert_select) argv_insert 0
      [115, 113, 108] 4 result_t trace_create_insert_select rfl rfl rfl).2.2.2
      [[(Janet.keyword [97], Janet.number (.int 1)), (Janet.keyword [98], Janet.string [120])]]
      (Event.extract_statements :: trace_create_insert_select ++
        [Event.destroy_result 2, Event.destroy_extracted]) rfl).2.2⟩

/-! ## The handle discipline -/

theorem open_handles_extract (t : List Event) :
    open_handles [] (.extract_statements :: t) = open_handles [.extracted] t := rfl

theorem open_handles_after_failure (statements : List Statement) (err : String)
    (argv : List Janet) (e : Err) (t : List Event) (hne : statements.length ≠ 0)
    (h : eval_extracted statements err argv = (.error e, t)) :
    ∃ opened, open_handles [] t = some opened ∧ Handle.extracted ∈ opened := by
  rw [open_handles_control]
  rcases eval_extracted_error statements err argv e t hne h with ⟨j, c, _, hshape, hc⟩ | hc
  · rw [hc, open_handles_extract, open_handles_append, open_handles_completed]
    rcases open_handles_failed j c hshape with h1 | h1
    · exact ⟨_, h1, by simp⟩
    · exact ⟨_, h1, by simp⟩
  · rw [hc, open_handles_extract, open_handles_append, open_handles_completed]
    exact ⟨[.result (statements.length - 1), .extracted],
      by simp [open_handles, step_handles, Event.creates, Event.destroys], by simp⟩

theorem open_handles_after_success (statements : List Statement) (err : String)
    (argv : List Janet) (rows : List (List (Janet × Janet))) (t : List Event)
    (h : eval_extracted statements err argv = (.ok rows, t)) :
    open_handles [] t = some [] := by
  obtain ⟨off, r, t0, hexec, _, _, ht⟩ := eval_extracted_ok statements err argv rows t h
  obtain ⟨_, _, hc⟩ := execute_statements_ok statements argv off r t0 hexec
  have hctl : control t = .extract_statements ::
      ((List.range' 0 (statements.length - 1)).flatMap statement_calls ++
        [.prepare_extracted_statement (statements.length - 1),
          .execute_prepared (statements.length - 1),
          .destroy_prepare (statements.length - 1),
          .destroy_result (statements.length - 1), .destroy_extracted]) := by
    rw [ht, List.cons_append, control_cons_extract, control_append, hc]
    simp [control, Event.is_bind]
  rw [open_handles_control, hctl, open_handles_extract, open_handles_append,
    open_handles_completed]
  simp [open_handles, step_handles, Event.creates, Event.destroys]

/-- C8: on every path of `connection_eval` the trace of engine calls respects the
handle discipline (no handle is destroyed when it is not open, that is, destroyed
twice or before its creation, and none is created twice); and when the call returns,
every handle it created has been destroyed: no handle of the call is open. -/
theorem handle_discipline (E : Engine) (argv : List Janet) :
    (∃ opened, open_handles [] (connection_eval E argv).2 = some opened) ∧
    (∀ rows, (connection_eval E argv).1 = .ok rows →
      open_handles [] (connection_eval E argv).2 = some []) := by
  rcases connection_eval_cases E argv with ⟨e, he⟩ | ⟨c, query, hc, hq⟩
  · rw [he]
    exact ⟨⟨[], rfl⟩, fun _ _ => rfl⟩
  · obtain ⟨_, heval⟩ := connection_eval_of_args E argv c query hc hq
    rw [heval]
    by_cases hne : (E.extract_statements c query).length = 0
    · rw [eval_extracted, if_pos hne]
      exact ⟨⟨[], rfl⟩, fun _ _ => rfl⟩
    · rcases hev : eval_extracted (E.extract_statements c query)
          (E.extract_statements_error c query) argv with ⟨o, t⟩
      cases o with
      | error e =>
        obtain ⟨opened, ho, _⟩ := open_handles_after_failure _ _ _ e t hne hev
        exact ⟨⟨opened, ho⟩, fun rows hr => by cases hr⟩
      | ok rows =>
        have ho := open_handles_after_success _ _ _ rows t hev
        exact ⟨⟨[], ho⟩, fun _ _ => ho⟩

/-- Witness of C8: the three-statement example returns with no handle open. -/
theorem handle_discipline_witness :
    open_handles [] (connection_eval (engine_of batch_create_insert_select) argv_insert).2 =
      some [] :=
  (handle_discipline (engine_of batch_create_insert_select) argv_insert).2
    [[(Janet.keyword [97], Janet.number (.int 1)), (Janet.keyword [98], Janet.string [120])]]
    rfl

/-- Every failure of `connection_eval` after a non-empty batch was extracted leaves the
batch handle open. -/
theorem failure_leaves_batch_open (E : Engine) (argv : List Janet) (c : Nat) (query : Bytes)
    (e : Err) (t : List Event)
    (hc : janet_getabstract argv 0 .connection_type = .ok c)
    (hq : janet_getcstring argv 1 = .ok query)
    (hne : (E.extract_statements c query).length ≠ 0)
    (h : connection_eval E argv = (.error e, t)) :
    ∃ opened, open_handles [] t = some opened ∧ Handle.extracted ∈ opened := by
  obtain ⟨_, heval⟩ := connection_eval_of_args E argv c query hc hq
  rw [heval] at h
  exact open_handles_after_failure _ _ _ e t hne h

/-- C1 fails on the code: `select ?;` without supplied values panics with ArityError
(given 0, needed 1) after the batch was extracted and the statement prepared, and
neither handle is destroyed: both are open when the error propagates. -/
theorem arity_error_leaves_handles_open :
    connection_eval (engine_of [stmt_ok 1 empty_result]) argv_none =
      (.error (.ArityError 0 1), [.extract_statements, .prepare_extracted_statement 0]) ∧
    open_handles [] (connection_eval (engine_of [stmt_ok 1 empty_result]) argv_none).2 =
      some [.prepared 0, .extracted] :=
  ⟨rfl, rfl⟩

/-! ## Host structs -/

theorem replace_value_length (key value : Janet) (items : List (Janet × Janet)) :
    (replace_value key value items).length = items.length := by
  induction items with
  | nil => rfl
  | cons p items ih =>
    obtain ⟨k, v⟩ := p
    rw [replace_value]
    split_ifs <;> simp [ih]

theorem get_replace_value (key value : Janet) (items : List (Janet × Janet))
    (hmem : key ∈ items.map Prod.fst) (q : Janet) :
    janet_struct_get (replace_value key value items) q =
      if q = key then value else janet_struct_get items q := by
  induction items with
  | nil => simp at hmem
  | cons p items ih =>
    obtain ⟨k, v⟩ := p
    rw [replace_value]
    by_cases hk : k = key
    · subst hk
      rw [if_pos rfl, janet_struct_get, janet_struct_get]
      by_cases hq : k = q
      · subst hq; simp
      · have hq' : ¬ q = k := fun h => hq h.symm
        rw [if_neg hq, if_neg hq, if_neg hq']
    · rw [if_neg hk, janet_struct_get, janet_struct_get]
      have hmem' : key ∈ items.map Prod.fst := by
        simp only [List.map_cons, List.mem_cons] at hmem
        rcases hmem with h | h
        · exact absurd h.symm hk
        · exact h
      by_cases hq : k = q
      · subst hq
        have : ¬ k = key := hk
        rw [if_pos rfl, if_pos rfl, if_neg this]
      · rw [if_neg hq, if_neg hq]
        exact ih hmem'

theorem get_append_new (key value : Janet) (items : List (Janet × Janet))
    (hmem : key ∉ items.map Prod.fst) (q : Janet) :
    janet_struct_get (items ++ [(key, value)]) q =
      if q = key then value else janet_struct_get items q := by
  induction items with
  | nil =>
    simp only [List.nil_append, janet_struct_get]
    by_cases hq : key = q
    · subst hq; simp
    · have hq' : ¬ q = key := fun h => hq h.symm
      rw [if_neg hq, if_neg hq']
  | cons p items ih =>
    obtain ⟨k, v⟩ := p
    simp only [List.map_cons, List.mem_cons, not_or] at hmem
    rw [List.cons_append, janet_struct_get, janet_struct_get]
    by_cases hq : k = q
    · subst hq
      have : ¬ k = key := fun h => hmem.1 h.symm
      rw [if_pos rfl, if_pos rfl, if_neg this]
    · rw [if_neg hq, if_neg hq]
      exact ih hmem.2

theorem janet_struct_put_length (st : JanetKV) (key value : Janet) :
    (janet_struct_put st key value).length = st.length ∧
      (janet_struct_put st key value).items.length ≤ st.items.length + 1 := by
  unfold janet_struct_put
  split_ifs
  · exact ⟨rfl, by omega⟩
  · exact ⟨rfl, by omega⟩
  · exact ⟨rfl, by simp [replace_value_length]⟩
  · exact ⟨rfl, by simp⟩

theorem janet_struct_put_get (st : JanetKV) (key value : Janet) (hk : key ≠ .nil)
    (hv : value ≠ .nil) (hroom : st.items.length < st.length) (q : Janet) :
    janet_struct_get (janet_struct_put st key value).items q =
      if q = key then value else janet_struct_get st.items q := by
  unfold janet_struct_put
  have h1 : ¬ (key = .nil ∨ value = .nil) := by
    intro h
    rcases h with h | h
    · exact hk h
    · exact hv h
  have h2 : ¬ st.items.length = st.length := by omega
  rw [if_neg h1, if_neg h2]
  by_cases hmem : key ∈ st.items.map Prod.fst
  · rw [if_pos hmem]
    exact get_replace_value key value st.items hmem q
  · rw [if_neg hmem]
    exact get_append_new key value st.items hmem q

theorem decode_cell_not_nil (r : ResultSet) (col row : Nat) (v : Janet)
    (h : decode_cell r col row = .ok v) : v ≠ .nil := by
  unfold decode_cell at h
  split at h <;>
    first
    | (injection h with h; subst h; simp [janet_wrap_integer, janet_wrap_number])
    | cases h

theorem column_keywords_getD (r : ResultSet) (col : Nat) (h : col < duckdb_column_count r) :
    (column_keywords r).getD col .nil = .keyword (duckdb_column_name r col) := by
  simp [column_keywords, List.getD_eq_getElem?_getD, h]

/-- Columns of name `key` that are null from `col` on leave the value under `key` as
it is. -/
theorem columns_loop_skip (r : ResultSet) (row : Nat) (key : Janet) :
    ∀ fuel col st st', st.length = duckdb_column_count r → st.items.length ≤ col →
      columns_loop r (column_keywords r) row fuel col st = .ok st' →
      (∀ col', col ≤ col' → col' < duckdb_column_count r →
        Janet.keyword (duckdb_column_name r col') = key →
        duckdb_value_is_null r col' row = true) →
      janet_struct_get st'.items key = janet_struct_get st.items key := by
  intro fuel
  induction fuel with
  | zero =>
    intro col st st' _ _ h _
    rw [columns_loop] at h
    injection h with h
    rw [h]
  | succ fuel ih =>
    intro col st st' hlen hitems h hnull
    rw [columns_loop] at h
    by_cases hg : col < duckdb_column_count r
    · rw [if_pos hg] at h
      cases hn : duckdb_value_is_null r col row with
      | true =>
        rw [hn] at h
        simp only [if_true] at h
        exact ih (col + 1) st st' hlen (by omega) h
          (fun col' h1 h2 h3 => hnull col' (by omega) h2 h3)
      | false =>
        rw [hn] at h
        simp only [Bool.false_eq_true, if_false] at h
        cases hd : decode_cell r col row with
        | error e => rw [hd] at h; cases h
        | ok v =>
          rw [hd] at h
          simp only at h
          obtain ⟨hl1, hl2⟩ := janet_struct_put_length st
            ((column_keywords r).getD col .nil) v
          have hrec := ih (col + 1) _ st' (by rw [hl1, hlen]) (by omega) h
            (fun col' h1 h2 h3 => hnull col' (by omega) h2 h3)
          rw [hrec, column_keywords_getD r col hg,
            janet_struct_put_get st _ v (by simp) (decode_cell_not_nil r col row v hd)
              (by omega)]
          have hne : ¬ key = Janet.keyword (duckdb_column_name r col) := by
            intro heq
            have := hnull col (le_refl col) hg heq.symm
            rw [hn] at this
            cases this
          rw [if_neg hne]
    · rw [if_neg hg] at h
      injection h with h
      rw [h]

/-- The value under `key` after the column loop is the one decoded from the last
column of that name whose cell is not null. -/
theorem columns_loop_last (r : ResultSet) (row : Nat) (key : Janet) (col0 : Nat)
    (hcol0 : col0 < duckdb_column_count r)
    (hname : Janet.keyword (duckdb_column_name r col0) = key)
    (hnn : duckdb_value_is_null r col0 row = false)
    (hlater : ∀ col', col0 < col' → col' < duckdb_column_count r →
      Janet.keyword (duckdb_column_name r col') = key →
      duckdb_value_is_null r col' row = true) :
    ∀ fuel col st st', col + fuel = duckdb_column_count r →
      st.length = duckdb_column_count r → st.items.length ≤ col → col ≤ col0 →
      columns_loop r (column_keywords r) row fuel col st = .ok st' →
      decode_cell r col0 row = .ok (janet_struct_get st'.items key) := by
  intro fuel
  induction fuel with
  | zero => intro col st st' hf _ _ hle _; omega
  | succ fuel ih =>
    intro col st st' hf hlen hitems hle h
    have hg : col < duckdb_column_count r := by omega
    rw [columns_loop, if_pos hg] at h
    by_cases heq : col = col0
    · subst heq
      rw [hnn] at h
      simp only [Bool.false_eq_true, if_false] at h
      cases hd : decode_cell r col row with
      | error e => rw [hd] at h; cases h
      | ok v =>
        rw [hd] at h
        simp only at h
        obtain ⟨hl1, hl2⟩ := janet_struct_put_length st
          ((column_keywords r).getD col .nil) v
        have hskip := columns_loop_skip r row key fuel (col + 1) _ st'
          (by rw [hl1, hlen]) (by omega) h
          (fun col' h1 h2 h3 => hlater col' (by omega) h2 h3)
        rw [hskip, column_keywords_getD r col hg,
          janet_struct_put_get st _ v (by simp) (decode_cell_not_nil r col row v hd)
            (by omega), if_pos hname.symm]
    · have hlt : col + 1 ≤ col0 := by omega
      cases hn : duckdb_value_is_null r col row with
      | true =>
        rw [hn] at h
        simp only [if_true] at h
        exact ih (col + 1) st st' (by omega) hlen (by omega) hlt h
      | false =>
        rw [hn] at h
        simp only [Bool.false_eq_true, if_false] at h
        cases hd : decode_cell r col row with
        | error e => rw [hd] at h; cases h
        | ok v =>
          rw [hd] at h
          simp only at h
          obtain ⟨hl1, hl2⟩ := janet_struct_put_length st
            ((column_keywords r).getD col .nil) v
          exact ih (col + 1) _ st' (by omega) (by rw [hl1, hlen]) (by omega) hlt h

/-! ## Records -/

theorem build_row_ok (r : ResultSet) (row : Nat) (rec : List (Janet × Janet))
    (h : build_row r (column_keywords r) row = .ok rec) :
    ∃ st, columns_loop r (column_keywords r) row (duckdb_column_count r) 0
        (janet_struct_begin (duckdb_column_count r)) = .ok st ∧ rec = st.items := by
  rw [build_row] at h
  cases hl : columns_loop r (column_keywords r) row (duckdb_column_count r) 0
      (janet_struct_begin (duckdb_column_count r)) with
  | error e => rw [hl] at h; cases h
  | ok st =>
    rw [hl] at h
    injection h with h
    exact ⟨st, rfl, h.symm⟩

/-- C5, as the code has it: a null cell is never decoded, so a row fails only with
UnknownColumnType at a cell that is not null, whatever the engine types of the
columns with null cells; and in the struct of a row, a column whose cell is null
yields nil under its name, provided no column of the same name has a cell that is
not null in that row. -/
theorem null_cell_yields_nil (r : ResultSet) (row : Nat) :
    (∀ e, build_row r (column_keywords r) row = .error e →
      ∃ col, col < duckdb_column_count r ∧ duckdb_value_is_null r col row = false ∧
        e = .UnknownColumnType col row) ∧
    (∀ rec col, build_row r (column_keywords r) row = .ok rec →
      col < duckdb_column_count r → duckdb_value_is_null r col row = true →
      (∀ col', col' < duckdb_column_count r →
        duckdb_column_name r col' = duckdb_column_name r col →
        duckdb_value_is_null r col' row = true) →
      janet_struct_get rec (.keyword (duckdb_column_name r col)) = .nil) := by
  refine ⟨fun e h => build_row_error r (column_keywords r) row e h, ?_⟩
  intro rec col h _ _ hsame
  obtain ⟨st, hst, hrec⟩ := build_row_ok r row rec h
  rw [hrec, columns_loop_skip r row (.keyword (duckdb_column_name r col))
    (duckdb_column_count r) 0 (janet_struct_begin (duckdb_column_count r)) st rfl
    (Nat.le_refl 0) hst]
  · rfl
  · intro col' _ h2 h3
    injection h3 with h3
    exact hsame col' h2 h3

/-- Witness of C5: a null cell in a column of an engine type without decoder gives a
struct, and the struct yields nil under the column's name. -/
theorem null_cell_yields_nil_witness :
    build_row result_null_undecodable (column_keywords result_null_undecodable) 0 = .ok [] ∧
    janet_struct_get [] (.keyword (duckdb_column_name result_null_undecodable 0)) = .nil :=
  ⟨rfl, (null_cell_yields_nil result_null_undecodable 0).2 [] 0 rfl (by decide) rfl
    (fun _ _ _ => rfl)⟩

/-- C5 fails as stated: with two columns named `a` holding 1 and NULL, the cell of
column 1 is null and the struct yields 1, not nil, under that column's name. -/
theorem null_cell_with_duplicate_name :
    duckdb_value_is_null result_dup_null_last 1 0 = true ∧
    build_row result_dup_null_last (column_keywords result_dup_null_last) 0 =
      .ok [(.keyword [97], .number (.int 1))] ∧
    janet_struct_get [(.keyword [97], .number (.int 1))]
        (.keyword (duckdb_column_name result_dup_null_last 1)) = .number (.int 1) ∧
    (Janet.number (.int 1) ≠ Janet.nil) :=
  ⟨rfl, rfl, rfl, by decide⟩

/-- C7, as the code has it: in the struct of a row, the value under a column name is
the value decoded from the cell of the highest column index of that name whose cell
is not null, and nil when every cell of that name is null; the values decoded for
earlier columns of that name are not kept. -/
theorem record_keeps_last_non_null (r : ResultSet) (row : Nat) (rec : List (Janet × Janet))
    (name : Bytes) (h : build_row r (column_keywords r) row = .ok rec) :
    (∀ col, col < duckdb_column_count r → duckdb_column_name r col = name →
      duckdb_value_is_null r col row = false →
      (∀ col', col < col' → col' < duckdb_column_count r →
        duckdb_column_name r col' = name → duckdb_value_is_null r col' row = true) →
      decode_cell r col row = .ok (janet_struct_get rec (.keyword name))) ∧
    ((∀ col, col < duckdb_column_count r → duckdb_column_name r col = name →
        duckdb_value_is_null r col row = true) →
      janet_struct_get rec (.keyword name) = .nil) := by
  obtain ⟨st, hst, hrec⟩ := build_row_ok r row rec h
  subst hrec
  constructor
  · intro col hcol hname hnn hlater
    exact columns_loop_last r row (.keyword name) col hcol (by rw [hname]) hnn
      (fun col' h1 h2 h3 => hlater col' h1 h2 (by injection h3))
      (duckdb_column_count r) 0 (janet_struct_begin (duckdb_column_count r)) st (by omega)
      rfl (Nat.le_refl 0) (Nat.zero_le col) hst
  · intro hall
    rw [columns_loop_skip r row (.keyword name) (duckdb_column_count r) 0
      (janet_struct_begin (duckdb_column_count r)) st rfl (Nat.le_refl 0) hst]
    · rfl
    · intro col' _ h2 h3
      exact hall col' h2 (by injection h3)

/-- Witness of C7: with two columns named `a` holding 1 and 2, the struct yields under
`a` the value decoded from column 1. -/
theorem record_keeps_last_non_null_witness :
    decode_cell result_dup_values 1 0 =
      .ok (janet_struct_get [(.keyword [97], .number (.int 2))] (.keyword [97])) :=
  (record_keeps_last_non_null result_dup_values 0 [(.keyword [97], .number (.int 2))] [97]
    rfl).1 1 (by decide) rfl rfl
    (fun col' h1 h2 _ => by
      change col' < 2 at h2
      omega)

/-- C7 fails as stated: with two columns named `x` holding 'v' and NULL, the cell at
the highest index of that name is null and the struct yields 'v', not nil. -/
theorem duplicate_name_null_last_keeps_earlier :
    duckdb_column_name result_dup_text 0 = duckdb_column_name result_dup_text 1 ∧
    duckdb_value_is_null result_dup_text 1 0 = true ∧
    materialize result_dup_text = .ok [[(.keyword [120], .string [118])]] ∧
    janet_struct_get [(.keyword [120], .string [118])] (.keyword [120]) = .string [118] ∧
    (Janet.string [118] ≠ Janet.nil) :=
  ⟨rfl, rfl, rfl, rfl, by decide⟩

/-! ## Integer columns -/

theorem to_int32_of_int32 (v : Int) (h1 : -2 ^ 31 ≤ v) (h2 : v < 2 ^ 31) : to_int32 v = v := by
  unfold to_int32
  omega

theorem to_int32_of_large (v : Int) (h1 : 2 ^ 31 ≤ v) (h2 : v < 2 ^ 32) :
    to_int32 v = v - 2 ^ 32 := by
  unfold to_int32
  omega

/-- A cell of an integer column of at most 32 bits whose value fits `int32_t` is decoded
as the number equal to it. -/
theorem decode_int32_exact (r : ResultSet) (col row : Nat) (v : Int)
    (ht : duckdb_column_type r col ∈ [duckdb_type.DUCKDB_TYPE_TINYINT, .DUCKDB_TYPE_SMALLINT,
      .DUCKDB_TYPE_INTEGER, .DUCKDB_TYPE_UTINYINT, .DUCKDB_TYPE_USMALLINT,
      .DUCKDB_TYPE_UINTEGER])
    (hv : r.cell col row = .integer v) (h1 : -2 ^ 31 ≤ v) (h2 : v < 2 ^ 31) :
    decode_cell r col row = .ok (.number (.int v)) := by
  simp only [List.mem_cons, List.mem_singleton, List.not_mem_nil, or_false] at ht
  rcases ht with ht | ht | ht | ht | ht | ht <;>
    simp only [decode_cell, ht, duckdb_value_integer, hv, janet_wrap_integer, janet_wrap_number,
      to_int32_of_int32 v h1 h2]

/-- A UINTEGER cell holding `v` with `2^31 <= v < 2^32` is decoded as `v - 2^32`. -/
theorem decode_large_uinteger (r : ResultSet) (col row : Nat) (v : Int)
    (ht : duckdb_column_type r col = .DUCKDB_TYPE_UINTEGER)
    (hv : r.cell col row = .integer v) (h1 : 2 ^ 31 ≤ v) (h2 : v < 2 ^ 32) :
    decode_cell r col row = .ok (.number (.int (v - 2 ^ 32))) := by
  simp only [decode_cell, ht, duckdb_value_integer, hv, janet_wrap_integer, janet_wrap_number,
    to_int32_of_large v h1 h2]

/-- C10 fails on the code: the UINTEGER value 2147483648 (2^31) passes through the
`int32_t` parameter of `janet_wrap_integer` and is decoded as the number -2147483648. -/
theorem uinteger_decodes_negative :
    decode_cell result_uinteger 0 0 = .ok (.number (.int (-2147483648))) ∧
    materialize result_uinteger = .ok [[(.keyword [117], .number (.int (-2147483648)))]] ∧
    (Janet.number (.int (-2147483648)) ≠ Janet.number (.int 2147483648)) :=
  ⟨rfl, rfl, by decide⟩

/-! ## Closing a database -/

/-- The record `database_close` closes is the new one: the record of any database
value that existed before keeps its handle, and the engine database stays open
unless the fresh memory happened to hold its handle. -/
theorem database_close_keeps_argument (h : Heap) (ref d : Nat) (junk : Option Nat)
    (hd : h.databases.getD ref none = some d) (hopen : d ∈ h.open_databases)
    (hjunk : junk ≠ some d) :
    (database_close [.abstract .database_type ref] junk h).1 = .ok .nil ∧
    database_is_open (database_close [.abstract .database_type ref] junk h).2
      (.abstract .database_type ref) = true := by
  have href : ref < h.databases.length := by
    by_contra hge
    rw [List.getD_eq_default _ _ (by omega)] at hd
    cases hd
  have hget : ∀ x : Option Nat, (h.databases ++ [x])[ref]?.getD none = some d := by
    intro x
    rw [List.getElem?_append_left href, ← List.getD_eq_getElem?_getD]
    exact hd
  refine ⟨rfl, ?_⟩
  simp only [database_close, List.length_singleton, ne_eq, not_true_eq_false, if_false,
    janet_abstract_database, duckdb_close]
  have hlast : (h.databases ++ [junk]).getD h.databases.length none = junk := by
    simp [List.getD_eq_getElem?_getD]
  rw [hlast]
  cases junk with
  | none => simp [database_is_open, hget, hopen]
  | some j =>
    have hjd : ¬ d = j := fun hh => hjunk (by rw [hh])
    simp [database_is_open, hget, hopen, hjd]

/-- C9 fails on the code: `(duckdb/close db)` returns nil and the engine handle held
by `db` is still open; the record closed is one made inside `database_close`. -/
theorem database_close_leaves_argument_open :
    database_is_open heap_one db0 = true ∧
    database_close [db0] none heap_one =
      (.ok .nil, { databases := [some 7, none], open_databases := [7] }) ∧
    database_is_open (database_close [db0] none heap_one).2 db0 = true :=
  ⟨by decide, rfl, by decide⟩

end JanetDuckDB
